import Mathlib

/-!
Verification of the Stratosphere engine's ECS signature core and `.smodel`
loader against its specification.

The definitions below are shallow embeddings of the C++ sources:
`Engine/include/ECS/Components.h` (ComponentRegistry, ComponentMask),
`Engine/src/SModelLoader.cpp` (LoadSModelFile and its helpers) and
`Sample/src/VerifyLoadSModel.cpp` (node-graph verification and global
transform resolution).  C++ machine integers are modelled as `Nat` with an
explicit `% 2^w` wherever the C++ arithmetic can wrap; `float` matrix
entries are modelled as exact rationals.
-/

namespace ECS

/-- Modulus of a C++ `uint64_t` word. -/
def U64 : Nat := 2 ^ 64

/-- `ComponentMask` from `Components.h`: a dynamic bitset backed by
`std::vector<uint64_t> m_words` (64 bits per word). -/
structure ComponentMask where
  words : List Nat
deriving DecidableEq

/-- Well-formedness: every backing word fits in a `uint64_t`.  This is
implicit in the C++ type and is established by all mask operations. -/
def ComponentMask.wf (m : ComponentMask) : Prop :=
  ∀ w ∈ m.words, w < U64

/-- `ensureBit`: grow the backing storage (zero-filled) so that word
`compId / 64` exists, as `m_words.resize(need, 0)` does. -/
def ComponentMask.ensureBit (m : ComponentMask) (compId : Nat) : ComponentMask :=
  let need := compId / 64 + 1
  if m.words.length < need then
    ⟨m.words ++ List.replicate (need - m.words.length) 0⟩
  else m

/-- `ComponentMask::set`: grow storage, then `m_words[wordIdx] |= 1 << bit`. -/
def ComponentMask.set (m : ComponentMask) (compId : Nat) : ComponentMask :=
  let g := m.ensureBit compId
  ⟨g.words.set (compId / 64) ((g.words.getD (compId / 64) 0) ||| (1 <<< (compId % 64)))⟩

/-- `ComponentMask::has`: out-of-range word index reads as absent. -/
def ComponentMask.has (m : ComponentMask) (compId : Nat) : Bool :=
  let wordIdx := compId / 64
  let bit := compId % 64
  if m.words.length ≤ wordIdx then false
  else ((m.words.getD wordIdx 0) &&& (1 <<< bit)) != 0

/-- `ComponentMask::clear`: `if (!has(compId)) return;` then
`m_words[wordIdx] &= ~(1 << bit)` (complement taken in 64 bits). -/
def ComponentMask.clear (m : ComponentMask) (compId : Nat) : ComponentMask :=
  if m.has compId then
    ⟨m.words.set (compId / 64)
      ((m.words.getD (compId / 64) 0) &&& (U64 - 1 - (1 <<< (compId % 64))))⟩
  else m

/-- `ComponentMask::containsAll`: word-by-word `(a & b) == b`, the shorter
operand zero-extended. -/
def ComponentMask.containsAll (m rhs : ComponentMask) : Bool :=
  let n := max m.words.length rhs.words.length
  (List.range n).all fun i =>
    let a := m.words.getD i 0
    let b := rhs.words.getD i 0
    (a &&& b) == b

/-- `ComponentMask::containsNone`: word-by-word `(a & b) == 0`. -/
def ComponentMask.containsNone (m rhs : ComponentMask) : Bool :=
  let n := max m.words.length rhs.words.length
  (List.range n).all fun i =>
    let a := m.words.getD i 0
    let b := rhs.words.getD i 0
    (a &&& b) == 0

/-- `ComponentMask::matches`. -/
def ComponentMask.matches (m required excluded : ComponentMask) : Bool :=
  m.containsAll required && m.containsNone excluded

/-- One lowercase hex digit, as `std::hex` prints it. -/
def hexDigit (n : Nat) : Char :=
  if n < 10 then Char.ofNat (48 + n) else Char.ofNat (87 + n)

/-- A `uint64_t` word printed by `oss << std::setw(16) << std::setfill('0')
<< std::hex`: exactly 16 lowercase hex digits for any value below `2^64`. -/
def hex16 (v : Nat) : String :=
  String.mk ((List.range 16).map fun i => hexDigit ((v >>> (4 * (15 - i))) % 16))

/-- `ComponentMask::toKey`: `"0"` for an empty mask, else the words printed
most-significant word first, 16 hex digits each. -/
def ComponentMask.toKey (m : ComponentMask) : String :=
  if m.words.isEmpty then "0"
  else String.join (m.words.reverse.map hex16)

/-- `ComponentMask::fromIds`: fold `set` over the id list from the empty mask. -/
def ComponentMask.fromIds (ids : List Nat) : ComponentMask :=
  ids.foldl (fun m id => m.set id) ⟨[]⟩

/-- `ComponentRegistry::InvalidID == UINT32_MAX`. -/
def InvalidID : Nat := 2 ^ 32 - 1

/-- `ComponentRegistry` from `Components.h`: `m_nameToId` is the
`unordered_map` (modelled as an association list, newest binding first, as
`emplace` never overwrites an existing key) and `m_idToName` the vector. -/
structure ComponentRegistry where
  nameToId : List (String × Nat)
  idToName : List String
deriving DecidableEq

/-- `m_nameToId.find(name)`. -/
def ComponentRegistry.findId (r : ComponentRegistry) (name : String) : Option Nat :=
  (r.nameToId.find? fun p => p.1 == name).map Prod.snd

/-- `ComponentRegistry::count`. -/
def ComponentRegistry.count (r : ComponentRegistry) : Nat :=
  r.idToName.length

/-- `ComponentRegistry::registerComponent`: return the existing id on a hit,
else allocate `m_idToName.size()` and record the binding. -/
def ComponentRegistry.registerComponent (r : ComponentRegistry) (name : String) :
    Nat × ComponentRegistry :=
  match r.findId name with
  | some id => (id, r)
  | none =>
      let id := r.idToName.length
      (id, ⟨(name, id) :: r.nameToId, r.idToName ++ [name]⟩)

/-- `ComponentRegistry::getId`: pure lookup, `InvalidID` on a miss. -/
def ComponentRegistry.getId (r : ComponentRegistry) (name : String) : Nat :=
  (r.findId name).getD InvalidID

/-- `ComponentRegistry::ensureId`: register-or-get. -/
def ComponentRegistry.ensureId (r : ComponentRegistry) (name : String) :
    Nat × ComponentRegistry :=
  match r.findId name with
  | some id => (id, r)
  | none => r.registerComponent name

/-- A registry already holding one component, for concrete instantiation. -/
def sampleRegistry : ComponentRegistry := ⟨[("Position", 0)], ["Position"]⟩

end ECS

namespace SModel

/-- Modulus of a C++ `uint32_t`. -/
def U32 : Nat := 2 ^ 32

/-- Modulus of a C++ `uint64_t`. -/
def U64 : Nat := 2 ^ 64

/-- `UINT32_MAX`, the "no parent" / "no children" sentinel. -/
def u32Max : Nat := 2 ^ 32 - 1

/-- `'SMOD'` little-endian magic (`ModelFormat.h`). -/
def SMODEL_MAGIC : Nat := 0x444F4D53

/-- Loader's expected major version (`ModelFormat.h`). -/
def SMODEL_VERSION_MAJOR : Nat := 2

/-- Loader's expected minor version (`ModelFormat.h`). -/
def SMODEL_VERSION_MINOR : Nat := 1

/-- Modelled from the spec: `SModelHeader.h` is not among the sources (only
the umbrella include `ModelFormat.h` is).  Fields follow spec §6 ("magic,
versionMajor, versionMinor, counts (mesh/primitive/material/texture/node/
nodePrimitiveIndex/nodeChildIndices), per-table byte offsets,
stringTableOffset/Size, blobOffset/Size, fileSizeBytes") and the cooker's
assignments in `GltfToSmodel.cpp`.  Width conventions per spec §6/§9 and the
cooker's casts: counts, sizes, `nodeChildIndicesOffset` and `fileSizeBytes`
are `uint32_t`; the remaining offsets are `uint64_t`; versions `uint16_t`.
All are modelled as `Nat`. -/
structure SModelHeader where
  magic : Nat := 0
  versionMajor : Nat := 0
  versionMinor : Nat := 0
  meshCount : Nat := 0
  primitiveCount : Nat := 0
  materialCount : Nat := 0
  textureCount : Nat := 0
  nodeCount : Nat := 0
  nodePrimitiveIndexCount : Nat := 0
  nodeChildIndicesCount : Nat := 0
  meshesOffset : Nat := 0
  primitivesOffset : Nat := 0
  materialsOffset : Nat := 0
  texturesOffset : Nat := 0
  nodesOffset : Nat := 0
  nodePrimitiveIndicesOffset : Nat := 0
  nodeChildIndicesOffset : Nat := 0
  stringTableOffset : Nat := 0
  stringTableSize : Nat := 0
  blobOffset : Nat := 0
  blobSize : Nat := 0
  fileSizeBytes : Nat := 0
deriving DecidableEq

/-- Modelled from the spec: `SModelMeshRecord.h` is absent.  Fields per spec
§6; only the fields the loader reads are carried (name offset, counts,
stride, blob slice offsets/sizes); the float AABB payload and layout/index
format flags are omitted as the loader never reads them.  Offsets are
`uint64_t`, counts/stride/sizes `uint32_t` (cooker casts). -/
structure SModelMeshRecord where
  nameStrOffset : Nat := 0
  vertexCount : Nat := 0
  indexCount : Nat := 0
  vertexStride : Nat := 0
  vertexDataOffset : Nat := 0
  vertexDataSize : Nat := 0
  indexDataOffset : Nat := 0
  indexDataSize : Nat := 0
deriving DecidableEq

/-- Modelled from the spec: `SModelPrimitiveRecord.h` is absent.  Spec §6:
`{meshIndex, materialIndex, firstIndex, indexCount, vertexOffset}`. -/
structure SModelPrimitiveRecord where
  meshIndex : Nat := 0
  materialIndex : Nat := 0
  firstIndex : Nat := 0
  indexCount : Nat := 0
  vertexOffset : Int := 0
deriving DecidableEq

/-- Modelled from the spec: `SModelMaterialRecord.h` is absent.  Spec §6
gives five `int32_t` texture indices with `-1 = none`; the float PBR factor
payload, alpha mode and UV channels are omitted (never read by the loader). -/
structure SModelMaterialRecord where
  nameStrOffset : Nat := 0
  baseColorTexture : Int := -1
  normalTexture : Int := -1
  metallicRoughnessTexture : Int := -1
  occlusionTexture : Int := -1
  emissiveTexture : Int := -1
deriving DecidableEq

/-- Modelled from the spec: `SModelTextureRecord.h` is absent.  Only the
fields the loader reads are carried (`imageDataOffset` is `uint64_t`,
`imageDataSize` `uint32_t` per the cooker); sampler/color-space settings are
omitted. -/
structure SModelTextureRecord where
  nameStrOffset : Nat := 0
  uriStrOffset : Nat := 0
  imageDataOffset : Nat := 0
  imageDataSize : Nat := 0
deriving DecidableEq

/-- `SModelNodeRecord` from `SModelNodeRecord.h` (present in the sources).
The 16-float column-major `localMatrix` payload is omitted: the loader never
reads it.  The record header documents `firstChildIndex` as a start offset
into `nodeChildIndices[]`; the loader refers to this field as `firstChild`. -/
structure SModelNodeRecord where
  nameStrOffset : Nat := 0
  parentIndex : Nat := 0
  firstChildIndex : Nat := 0
  childCount : Nat := 0
  firstPrimitiveIndex : Nat := 0
  primitiveCount : Nat := 0
deriving DecidableEq

/-- Modelled from the spec: `sizeof(SModelHeader)` for the packed layout
described above (4+2+2 + 7*4 + 6*8 + 4 + 8+4 + 8+4 + 4 bytes). -/
def sModelHeaderSize : Nat := 116

/-- Modelled from the spec: `sizeof(SModelMeshRecord)` for the packed layout
(name, counts, stride, layout/index-type flags, two 3-float AABB corners,
two blob slices). -/
def sModelMeshRecordSize : Nat := 72

/-- Modelled from the spec: `sizeof(SModelPrimitiveRecord)` (five 4-byte
fields). -/
def sModelPrimitiveRecordSize : Nat := 20

/-- Modelled from the spec: `sizeof(SModelMaterialRecord)` for the packed
layout with PBR factors and five texture slots with UV channels. -/
def sModelMaterialRecordSize : Nat := 92

/-- Modelled from the spec: `sizeof(SModelTextureRecord)` for the packed
layout with sampler settings and the image blob slice. -/
def sModelTextureRecordSize : Nat := 48

/-- `sizeof(SModelNodeRecord) == 88`, by the `static_assert` in
`SModelNodeRecord.h`. -/
def sModelNodeRecordSize : Nat := 88

/-- A parsed `.smodel` byte buffer: its length and the values decoded at the
header and at each record table.  Any combination of field values can occur
in a file, so the tables are carried as plain lists; for a file whose table
ranges validate, the list stands for the `count` records at the table's
offset (so its length equals the corresponding header count). -/
structure SModelFileData where
  fileSize : Nat
  header : SModelHeader
  meshes : List SModelMeshRecord := []
  primitives : List SModelPrimitiveRecord := []
  materials : List SModelMaterialRecord := []
  textures : List SModelTextureRecord := []
  nodes : List SModelNodeRecord := []
  nodePrimitiveIndices : List Nat := []
deriving DecidableEq

/-- `SModelFileView` (`SModelLoader.h`): owns the file bytes and typed
pointers into them.  Pointers are modelled by whether they have been
assigned (they are non-null exactly when assigned); the owned byte vector by
its length. -/
structure SModelFileView where
  fileBytesSize : Nat := 0
  header : Option SModelHeader := none
  meshesSet : Bool := false
  primitivesSet : Bool := false
  materialsSet : Bool := false
  texturesSet : Bool := false
  nodesSet : Bool := false
  nodePrimitiveIndicesSet : Bool := false
  stringTableSet : Bool := false
  blobSet : Bool := false
deriving DecidableEq

/-- `SModelFileView{}` — the reset view. -/
def emptyView : SModelFileView := {}

/-- `isHeaderCompatible` from `ModelFormat.h`. -/
def isHeaderCompatible (h : SModelHeader) : Bool :=
  if h.magic ≠ SMODEL_MAGIC then false
  else if h.versionMajor ≠ SMODEL_VERSION_MAJOR then false
  else if h.versionMinor < SMODEL_VERSION_MINOR then false
  else true

/-- `isRangeInsideFile` from `SModelLoader.cpp`.  The `begin + size` sum is
`uint64_t` addition, hence the `% U64`. -/
def isRangeInsideFile (first size fileSize : Nat) : Bool :=
  if first > fileSize then false
  else if size > fileSize then false
  else if (first + size) % U64 > fileSize then false
  else true

/-- `tableRangeValid<T>`: `bytes = count * sizeof(T)` in `uint64_t`
arithmetic, then the range check. -/
def tableRangeValid (recordSize tableOffset count fileSize : Nat) : Bool :=
  isRangeInsideFile tableOffset ((count * recordSize) % U64) fileSize

/-- Error string built by `tableRangeValid`'s `ostringstream`. -/
def tableRangeError (tableOffset count recordSize fileSize : Nat) : String :=
  "Table out of file bounds. offset=" ++ toString tableOffset ++
    " bytes=" ++ toString ((count * recordSize) % U64) ++
    " fileSize=" ++ toString fileSize

/-- Mesh record cross-validation loop of `LoadSModelFile`.  Blob slice sums
are `uint64_t` additions (which can wrap); the expected vertex-buffer size
`uint64_t(vertexCount) * uint64_t(vertexStride)` cannot wrap for `uint32_t`
operands, so it carries no modulus. -/
def checkMeshes (blobSize : Nat) : List SModelMeshRecord → Nat → Option String
  | [], _ => none
  | m :: rest, i =>
    if (m.vertexDataOffset + m.vertexDataSize) % U64 > blobSize then
      some ("Mesh vertex data slice out of blob bounds (meshIndex=" ++ toString i ++ ")")
    else if (m.indexDataOffset + m.indexDataSize) % U64 > blobSize then
      some ("Mesh index data slice out of blob bounds (meshIndex=" ++ toString i ++ ")")
    else if m.vertexCount = 0 ∨ m.vertexStride = 0 then
      some ("Mesh has invalid vertexCount/vertexStride (meshIndex=" ++ toString i ++ ")")
    else if m.vertexDataSize ≠ m.vertexCount * m.vertexStride then
      some ("Mesh vertexDataSize mismatch (meshIndex=" ++ toString i ++ ")")
    else checkMeshes blobSize rest (i + 1)

/-- Texture record cross-validation loop of `LoadSModelFile`. -/
def checkTextures (blobSize : Nat) : List SModelTextureRecord → Nat → Option String
  | [], _ => none
  | t :: rest, i =>
    if (t.imageDataOffset + t.imageDataSize) % U64 > blobSize then
      some ("Texture image data slice out of blob bounds (textureIndex=" ++ toString i ++ ")")
    else checkTextures blobSize rest (i + 1)

/-- Primitive record cross-validation loop of `LoadSModelFile`. -/
def checkPrimitives (meshCount materialCount : Nat) :
    List SModelPrimitiveRecord → Nat → Option String
  | [], _ => none
  | p :: rest, i =>
    if p.meshIndex ≥ meshCount then
      some ("Primitive references invalid meshIndex (primitiveIndex=" ++ toString i ++ ")")
    else if p.materialIndex ≥ materialCount then
      some ("Primitive references invalid materialIndex (primitiveIndex=" ++ toString i ++ ")")
    else checkPrimitives meshCount materialCount rest (i + 1)

/-- The material loop's `checkTex` lambda: `-1` (any negative) means none,
otherwise `uint32_t(texIndex) < textureCount` must hold. -/
def checkTexIndex (textureCount : Nat) (texIndex : Int) : Bool :=
  if texIndex < 0 then true
  else decide (texIndex.toNat < textureCount)

/-- Material texture-index message for a given field name. -/
def materialTexError (i : Nat) (fieldName : String) : String :=
  "Material references invalid texture index (materialIndex=" ++ toString i ++
    ", field=" ++ fieldName ++ ")"

/-- Material record cross-validation loop of `LoadSModelFile`. -/
def checkMaterials (textureCount : Nat) : List SModelMaterialRecord → Nat → Option String
  | [], _ => none
  | mat :: rest, i =>
    if checkTexIndex textureCount mat.baseColorTexture = false then
      some (materialTexError i "baseColorTexture")
    else if checkTexIndex textureCount mat.normalTexture = false then
      some (materialTexError i "normalTexture")
    else if checkTexIndex textureCount mat.metallicRoughnessTexture = false then
      some (materialTexError i "metallicRoughnessTexture")
    else if checkTexIndex textureCount mat.occlusionTexture = false then
      some (materialTexError i "occlusionTexture")
    else if checkTexIndex textureCount mat.emissiveTexture = false then
      some (materialTexError i "emissiveTexture")
    else checkMaterials textureCount rest (i + 1)

/-- The loader's inner `for (k = 0; k < nr.primitiveCount; ++k)` loop over
`nodePrimitiveIndices[nr.firstPrimitiveIndex + k]`.  The index sum is
`uint32_t` addition (hence `% U32`); in C++ an out-of-bounds read here is
undefined behavior (the preceding range check can pass after a wrap), and is
modelled as reading 0.  The first argument of the recursion is the running
`k`, the second the number of iterations left. -/
def checkNodePrimsAux (np : List Nat) (primCount firstPrim : Nat) :
    Nat → Nat → Option String
  | _, 0 => none
  | k, left + 1 =>
    if np.getD ((firstPrim + k) % U32) 0 ≥ primCount then
      some "Node references invalid primitive index"
    else checkNodePrimsAux np primCount firstPrim (k + 1) left

/-- Node record validation loop of `LoadSModelFile` (the V2 block).  Note:
the child range `firstChild + childCount` is `uint32_t` addition compared
against `nodeCount` — not against the node-child-index table, which the
loader never reads nor range-validates. -/
def checkNodes (nodeCount idxCount primCount : Nat) (np : List Nat) :
    List SModelNodeRecord → Option String
  | [] => none
  | nr :: rest =>
    if nr.parentIndex ≠ u32Max ∧ nr.parentIndex ≥ nodeCount then
      some "Node parentIndex out of bounds"
    else if 0 < nr.childCount ∧ nr.firstChildIndex = u32Max then
      some "Node has children but firstChild == UINT32_MAX"
    else if 0 < nr.childCount ∧ (nr.firstChildIndex + nr.childCount) % U32 > nodeCount then
      some "Node children range out of bounds"
    else if 0 < nr.primitiveCount ∧
        (nr.firstPrimitiveIndex + nr.primitiveCount) % U32 > idxCount then
      some "Node primitive index range out of bounds"
    else if 0 < nr.primitiveCount then
      match checkNodePrimsAux np primCount nr.firstPrimitiveIndex 0 nr.primitiveCount with
      | some e => some e
      | none => checkNodes nodeCount idxCount primCount np rest
    else checkNodes nodeCount idxCount primCount np rest

/-- The "build pointers/views" and "validate record internal offsets" tail
of `LoadSModelFile` (source lines 181–360), entered once every section and
table byte range has validated: assign the table/string/blob pointers into
the view, then run the mesh, texture, primitive, material and node
cross-validation loops in source order. -/
def crossValidateRecords (f : SModelFileData) (v : SModelFileView) :
    Bool × String × SModelFileView :=
  let h := f.header
  let v := { v with
    meshesSet := true, primitivesSet := true, materialsSet := true, texturesSet := true,
    nodesSet := decide (0 < h.nodeCount),
    nodePrimitiveIndicesSet := decide (0 < h.nodePrimitiveIndexCount),
    stringTableSet := true, blobSet := true }
  match checkMeshes h.blobSize f.meshes 0 with
  | some e => (false, e, v)
  | none =>
    match checkTextures h.blobSize f.textures 0 with
    | some e => (false, e, v)
    | none =>
      match checkPrimitives h.meshCount h.materialCount f.primitives 0 with
      | some e => (false, e, v)
      | none =>
        match checkMaterials h.textureCount f.materials 0 with
        | some e => (false, e, v)
        | none =>
          if 0 < h.nodeCount then
            match checkNodes h.nodeCount h.nodePrimitiveIndexCount h.primitiveCount
                f.nodePrimitiveIndices f.nodes with
            | some e => (false, e, v)
            | none => (true, "", v)
          else (true, "", v)

/-- `LoadSModelFile` from `SModelLoader.cpp`, from the point where the file
bytes have been read (`path` open/read IO is outside the byte-level model;
an unreadable file fails before any byte is interpreted, with the view in
the same reset state as the empty-file failure).  Returns the C++ out-state
`(return value, outError, outView)`.  `vIn` is the caller's incoming view;
the code's first action is `outView = SModelFileView{}`, so `vIn` is
discarded. -/
def LoadSModelFile (f : SModelFileData) (vIn : SModelFileView) :
    Bool × String × SModelFileView :=
  let v : SModelFileView := emptyView
  if f.fileSize = 0 then (false, "File is empty", v)
  else
    let v := { v with fileBytesSize := f.fileSize }
    if f.fileSize < sModelHeaderSize then
      (false, "File too small to contain SModelHeader.", v)
    else
      let h := f.header
      let v := { v with header := some h }
      if isHeaderCompatible h = false then
        (false, "SModel header incompatible (bad magic or unsupported version).", v)
      else if h.fileSizeBytes ≠ 0 ∧ h.fileSizeBytes ≠ f.fileSize then
        (false, "SModel header fileSizeBytes does not match actual file size.", v)
      else if isRangeInsideFile h.stringTableOffset h.stringTableSize f.fileSize = false then
        (false, "String table out of bounds.", v)
      else if isRangeInsideFile h.blobOffset h.blobSize f.fileSize = false then
        (false, "Blob section out of bounds.", v)
      else if tableRangeValid sModelMeshRecordSize h.meshesOffset h.meshCount f.fileSize = false then
        (false, tableRangeError h.meshesOffset h.meshCount sModelMeshRecordSize f.fileSize, v)
      else if tableRangeValid sModelPrimitiveRecordSize h.primitivesOffset h.primitiveCount
          f.fileSize = false then
        (false, tableRangeError h.primitivesOffset h.primitiveCount sModelPrimitiveRecordSize
          f.fileSize, v)
      else if tableRangeValid sModelMaterialRecordSize h.materialsOffset h.materialCount
          f.fileSize = false then
        (false, tableRangeError h.materialsOffset h.materialCount sModelMaterialRecordSize
          f.fileSize, v)
      else if tableRangeValid sModelTextureRecordSize h.texturesOffset h.textureCount
          f.fileSize = false then
        (false, tableRangeError h.texturesOffset h.textureCount sModelTextureRecordSize
          f.fileSize, v)
      else if 0 < h.nodeCount ∧ tableRangeValid sModelNodeRecordSize h.nodesOffset h.nodeCount
          f.fileSize = false then
        (false, tableRangeError h.nodesOffset h.nodeCount sModelNodeRecordSize f.fileSize, v)
      else if 0 < h.nodePrimitiveIndexCount ∧ isRangeInsideFile h.nodePrimitiveIndicesOffset
          ((h.nodePrimitiveIndexCount * 4) % U64) f.fileSize = false then
        (false, "NodePrimitiveIndices table out of file bounds.", v)
      else crossValidateRecords f v

/-- A file holding exactly one valid v2.1 header and nothing else: every
count, offset and size zero, `fileSizeBytes` declaring the header size. -/
def emptyModelFile : SModelFileData :=
  { fileSize := sModelHeaderSize,
    header := { magic := SMODEL_MAGIC, versionMajor := 2, versionMinor := 1,
                fileSizeBytes := sModelHeaderSize } }

/-- A two-node file whose root declares child range `[0, 1)` while the
header's node-child-index table is empty (`nodeChildIndicesCount = 0`). -/
def childRangeFile : SModelFileData :=
  { fileSize := sModelHeaderSize + 2 * sModelNodeRecordSize,
    header := { magic := SMODEL_MAGIC, versionMajor := 2, versionMinor := 1,
                nodeCount := 2, nodesOffset := sModelHeaderSize,
                fileSizeBytes := sModelHeaderSize + 2 * sModelNodeRecordSize },
    nodes := [
      { parentIndex := u32Max, firstChildIndex := 0, childCount := 1 },
      { parentIndex := 0, firstChildIndex := u32Max, childCount := 0 } ] }

/-- A one-mesh file whose vertex blob slice is `[2^64 - 4, 2^64)`: the
`uint64_t` sum `vertexDataOffset + vertexDataSize` wraps to 0. -/
def wrapMeshFile : SModelFileData :=
  { fileSize := sModelHeaderSize + sModelMeshRecordSize,
    header := { magic := SMODEL_MAGIC, versionMajor := 2, versionMinor := 1,
                meshCount := 1, meshesOffset := sModelHeaderSize,
                fileSizeBytes := sModelHeaderSize + sModelMeshRecordSize },
    meshes := [
      { vertexCount := 1, vertexStride := 4,
        vertexDataOffset := U64 - 4, vertexDataSize := 4 } ] }

/-- A one-mesh file that passes every section/table range check and fails
only the late mesh cross-validation (`vertexCount == 0`). -/
def badMeshFile : SModelFileData :=
  { fileSize := sModelHeaderSize + sModelMeshRecordSize,
    header := { magic := SMODEL_MAGIC, versionMajor := 2, versionMinor := 1,
                meshCount := 1, meshesOffset := sModelHeaderSize,
                fileSizeBytes := sModelHeaderSize + sModelMeshRecordSize },
    meshes := [ {} ] }

/-- A header-only file whose magic is zeroed out. -/
def badMagicFile : SModelFileData :=
  { fileSize := sModelHeaderSize,
    header := { magic := 0, versionMajor := 2, versionMinor := 1 } }

/-- A header with a minor version newer than the loader expects. -/
def newerMinorHeader : SModelHeader :=
  { magic := SMODEL_MAGIC, versionMajor := 2, versionMinor := 7 }

/-- A stale, partially populated view handed in by a hypothetical caller. -/
def staleView : SModelFileView :=
  { fileBytesSize := 7, header := some { magic := 1 }, meshesSet := true, blobSet := true }

end SModel

namespace Verify

/-- Exact-rational model of a `glm::mat4` (column-major `float[16]`): field
`mJI` is column `J`, row `I`.  Float arithmetic is idealized as exact. -/
structure Mat4 where
  m00 : ℚ
  m01 : ℚ
  m02 : ℚ
  m03 : ℚ
  m10 : ℚ
  m11 : ℚ
  m12 : ℚ
  m13 : ℚ
  m20 : ℚ
  m21 : ℚ
  m22 : ℚ
  m23 : ℚ
  m30 : ℚ
  m31 : ℚ
  m32 : ℚ
  m33 : ℚ
deriving DecidableEq

/-- `glm::mat4(1.0f)`. -/
def mat4Id : Mat4 :=
  ⟨1, 0, 0, 0, 0, 1, 0, 0, 0, 0, 1, 0, 0, 0, 0, 1⟩

/-- `glm` matrix product: entry (column j, row i) of `A * B` is
`Σ_k A[col k][row i] * B[col j][row k]`. -/
def mat4Mul (A B : Mat4) : Mat4 where
  m00 := A.m00 * B.m00 + A.m10 * B.m01 + A.m20 * B.m02 + A.m30 * B.m03
  m01 := A.m01 * B.m00 + A.m11 * B.m01 + A.m21 * B.m02 + A.m31 * B.m03
  m02 := A.m02 * B.m00 + A.m12 * B.m01 + A.m22 * B.m02 + A.m32 * B.m03
  m03 := A.m03 * B.m00 + A.m13 * B.m01 + A.m23 * B.m02 + A.m33 * B.m03
  m10 := A.m00 * B.m10 + A.m10 * B.m11 + A.m20 * B.m12 + A.m30 * B.m13
  m11 := A.m01 * B.m10 + A.m11 * B.m11 + A.m21 * B.m12 + A.m31 * B.m13
  m12 := A.m02 * B.m10 + A.m12 * B.m11 + A.m22 * B.m12 + A.m32 * B.m13
  m13 := A.m03 * B.m10 + A.m13 * B.m11 + A.m23 * B.m12 + A.m33 * B.m13
  m20 := A.m00 * B.m20 + A.m10 * B.m21 + A.m20 * B.m22 + A.m30 * B.m23
  m21 := A.m01 * B.m20 + A.m11 * B.m21 + A.m21 * B.m22 + A.m31 * B.m23
  m22 := A.m02 * B.m20 + A.m12 * B.m21 + A.m22 * B.m22 + A.m32 * B.m23
  m23 := A.m03 * B.m20 + A.m13 * B.m21 + A.m23 * B.m22 + A.m33 * B.m23
  m30 := A.m00 * B.m30 + A.m10 * B.m31 + A.m20 * B.m32 + A.m30 * B.m33
  m31 := A.m01 * B.m30 + A.m11 * B.m31 + A.m21 * B.m32 + A.m31 * B.m33
  m32 := A.m02 * B.m30 + A.m12 * B.m31 + A.m22 * B.m32 + A.m32 * B.m33
  m33 := A.m03 * B.m30 + A.m13 * B.m31 + A.m23 * B.m32 + A.m33 * B.m33

/-- The verifier's `nearlyEqual` lambda (`std::abs(a - b) < 1e-4f`),
idealized over exact rationals. -/
def nearlyEqual (a b : ℚ) : Bool :=
  decide (|a - b| < 1 / 10000)

/-- Element-wise `nearlyEqual` over all 16 matrix elements, as the
verifier's final comparison loop computes. -/
def mat4NearlyEqual (A B : Mat4) : Bool :=
  nearlyEqual A.m00 B.m00 && nearlyEqual A.m01 B.m01 &&
  nearlyEqual A.m02 B.m02 && nearlyEqual A.m03 B.m03 &&
  nearlyEqual A.m10 B.m10 && nearlyEqual A.m11 B.m11 &&
  nearlyEqual A.m12 B.m12 && nearlyEqual A.m13 B.m13 &&
  nearlyEqual A.m20 B.m20 && nearlyEqual A.m21 B.m21 &&
  nearlyEqual A.m22 B.m22 && nearlyEqual A.m23 B.m23 &&
  nearlyEqual A.m30 B.m30 && nearlyEqual A.m31 B.m31 &&
  nearlyEqual A.m32 B.m32 && nearlyEqual A.m33 B.m33

/-- `ModelAsset::ModelNode` (`ModelAsset.h`); `debugName` omitted. -/
structure ModelNode where
  parentIndex : Nat := SModel.u32Max
  firstChildIndex : Nat := SModel.u32Max
  childCount : Nat := 0
  firstPrimitiveIndex : Nat := 0
  primitiveCount : Nat := 0
  localMatrix : Mat4 := mat4Id
  globalMatrix : Mat4 := mat4Id
deriving DecidableEq

instance : Inhabited ModelNode := ⟨{}⟩

/-- Per-node parent bounds check of the verifier (line "invalid
parentIndex"). -/
def parentFieldOk (nodes : List ModelNode) : Bool :=
  (List.range nodes.length).all fun i =>
    let n := nodes.getD i default
    !(n.parentIndex ≠ SModel.u32Max ∧ n.parentIndex ≥ nodes.length : Bool)

/-- Per-node child-range and child-link checks of the verifier: for a node
with children, `firstChildIndex` is not the sentinel, the range fits in the
`nodeChildIndices` array (`size_t` arithmetic — no wrap), every resolved
child index is `< nodeCount`, and each child's `parentIndex` names this
node. -/
def childLinksOk (nodes : List ModelNode) (nc : List Nat) : Bool :=
  (List.range nodes.length).all fun i =>
    let n := nodes.getD i default
    if 0 < n.childCount then
      if n.firstChildIndex = SModel.u32Max ∨ nc.length < n.firstChildIndex + n.childCount then
        false
      else
        (List.range n.childCount).all fun k =>
          let c := nc.getD (n.firstChildIndex + k) 0
          decide (c < nodes.length) && decide ((nodes.getD c default).parentIndex = i)
    else true

/-- The verifier's primitive-range loop for one node: `k` runs while
`k < primitiveCount && (firstPrimitiveIndex + k) < np.size()` (`uint32_t`
sums, hence `% U32`); each resolved index must be `< primCount`.  First
recursion argument is the running `k`, second the iterations left. -/
def primScanAux (np : List Nat) (primCount firstPrim : Nat) : Nat → Nat → Bool
  | _, 0 => true
  | k, left + 1 =>
    if (firstPrim + k) % SModel.U32 < np.length then
      decide (np.getD ((firstPrim + k) % SModel.U32) 0 < primCount) &&
        primScanAux np primCount firstPrim (k + 1) left
    else true

/-- Per-node primitive-range checks of the verifier. -/
def primLinksOk (nodes : List ModelNode) (np : List Nat) (primCount : Nat) : Bool :=
  (List.range nodes.length).all fun i =>
    let n := nodes.getD i default
    if 0 < n.primitiveCount then
      !((n.firstPrimitiveIndex + n.primitiveCount) % SModel.U32 > np.length : Bool) &&
        primScanAux np primCount n.firstPrimitiveIndex 0 n.primitiveCount
    else true

/-- State of the verifier's global-transform DFS: `expectedGlobals`
(initialized to identity) and the `visited` byte vector. -/
structure DfsState where
  expectedGlobals : List Mat4
  visited : List Bool
deriving DecidableEq

/-- The verifier's recursive `dfs` lambda, with an explicit recursion budget
(`fuel`): the C++ recursion is bounded by the visited-set check, and
`resolveGlobals` below supplies a sufficient budget.  Mirrors the source: an
out-of-range or already-visited index returns at once; otherwise the node's
global is recorded as `parent * local` and the validated child range is
recursed over, reading the just-stored global as the children's parent. -/
def dfs (nodes : List ModelNode) (nc : List Nat) :
    Nat → Nat → Mat4 → DfsState → DfsState
  | 0, _, _, s => s
  | fuel + 1, idx, parent, s =>
    if nodes.length ≤ idx then s
    else if s.visited.getD idx false then s
    else
      let n := nodes.getD idx default
      let s : DfsState :=
        ⟨s.expectedGlobals.set idx (mat4Mul parent n.localMatrix), s.visited.set idx true⟩
      if n.childCount = 0 ∨ n.firstChildIndex = SModel.u32Max then s
      else if nc.length < n.firstChildIndex + n.childCount then s
      else
        (List.range n.childCount).foldl
          (fun s k =>
            let c := nc.getD (n.firstChildIndex + k) 0
            dfs nodes nc fuel c (s.expectedGlobals.getD idx mat4Id) s)
          s

/-- The verifier's root loop (`dfs(i, mat4(1))` for every node with sentinel
parent), run with recursion budget `fuel`. -/
def resolveWithFuel (nodes : List ModelNode) (nc : List Nat) (fuel : Nat) : DfsState :=
  let init : DfsState :=
    ⟨List.replicate nodes.length mat4Id, List.replicate nodes.length false⟩
  (List.range nodes.length).foldl
    (fun s i =>
      if (nodes.getD i default).parentIndex = SModel.u32Max then
        dfs nodes nc fuel i mat4Id s
      else s)
    init

/-- Global-transform resolution as the verifier performs it; a budget of
`nodeCount` levels suffices (proved below). -/
def resolveGlobals (nodes : List ModelNode) (nc : List Nat) : DfsState :=
  resolveWithFuel nodes nc nodes.length

/-- The verifier's node-graph validation verdict (`nodeOk`): the per-node
bounds/link checks, plus the comparison of every *visited* node's stored
`globalMatrix` against the recomputed global; unvisited nodes are skipped by
a `continue`. -/
def verifyNodeGraph (nodes : List ModelNode) (np nc : List Nat) (primCount : Nat) : Bool :=
  let st := resolveGlobals nodes nc
  parentFieldOk nodes && childLinksOk nodes nc && primLinksOk nodes np primCount &&
    (List.range nodes.length).all fun i =>
      if st.visited.getD i false then
        mat4NearlyEqual (st.expectedGlobals.getD i mat4Id)
          ((nodes.getD i default).globalMatrix)
      else true

/-- Spec §8's node-graph round-trip topology: root `R` with children
`[C1, C2]` and `C1` with child `[C3]`, with arbitrary local transforms. -/
def nodesRC (lR lC1 lC2 lC3 : Mat4) : List ModelNode :=
  [ { parentIndex := SModel.u32Max, firstChildIndex := 0, childCount := 2,
      localMatrix := lR },
    { parentIndex := 0, firstChildIndex := 2, childCount := 1,
      localMatrix := lC1 },
    { parentIndex := 0, localMatrix := lC2 },
    { parentIndex := 1, localMatrix := lC3 } ]

/-- Child-index array for `nodesRC`: `R`'s children are nodes 1 and 2,
`C1`'s child is node 3. -/
def ncRC : List Nat := [1, 2, 3]

/-- Spec §8's cycle-detection table: node 0's child is node 1 and node 1's
child is node 0; neither is a root. -/
def cyclicNodes : List ModelNode :=
  [ { parentIndex := 1, firstChildIndex := 0, childCount := 1 },
    { parentIndex := 0, firstChildIndex := 1, childCount := 1 } ]

/-- Child-index array for `cyclicNodes`. -/
def cyclicNc : List Nat := [1, 0]

/-- Per-node correctness of resolved globals, as the spec states it: every
visited node's expected global is its parent's expected global (identity for
a root) times its own local matrix, the parent itself having been visited. -/
def nodeGlobalsConsistent (nodes : List ModelNode) (st : DfsState) : Prop :=
  ∀ j, j < nodes.length → st.visited.getD j false = true →
    ((nodes.getD j default).parentIndex = SModel.u32Max →
      st.expectedGlobals.getD j mat4Id =
        mat4Mul mat4Id (nodes.getD j default).localMatrix) ∧
    ((nodes.getD j default).parentIndex ≠ SModel.u32Max →
      st.visited.getD (nodes.getD j default).parentIndex false = true ∧
      st.expectedGlobals.getD j mat4Id =
        mat4Mul (st.expectedGlobals.getD (nodes.getD j default).parentIndex mat4Id)
          (nodes.getD j default).localMatrix)

/-- Calling convention of the verifier's `dfs`: an unvisited in-range target
is entered either as a root with the identity parent matrix, or as a child
of its (already visited) recorded parent, with that parent's stored expected
global passed down. -/
def dfsCallOk (nodes : List ModelNode) (idx : Nat) (parent : Mat4) (st : DfsState) : Prop :=
  idx < nodes.length → st.visited.getD idx false = false →
    ((nodes.getD idx default).parentIndex = SModel.u32Max ∧ parent = mat4Id) ∨
    ((nodes.getD idx default).parentIndex ≠ SModel.u32Max ∧
      st.visited.getD (nodes.getD idx default).parentIndex false = true ∧
      parent = st.expectedGlobals.getD (nodes.getD idx default).parentIndex mat4Id)

/-- A diagonal scale matrix used as a concrete local transform. -/
def mA : Mat4 := ⟨2, 0, 0, 0, 0, 3, 0, 0, 0, 0, 5, 0, 0, 0, 0, 7⟩

/-- A shear matrix used as a concrete local transform. -/
def mB : Mat4 := ⟨1, 1, 0, 0, 0, 1, 0, 0, 0, 0, 1, 0, 0, 0, 0, 1⟩

/-- A translation matrix used as a concrete local transform. -/
def mC : Mat4 := ⟨1, 0, 0, 0, 0, 1, 0, 0, 0, 0, 1, 0, 1, 2, 3, 1⟩

end Verify

namespace ECS

theorem land_shift_eq_testBit (w b : Nat) : ((w &&& (1 <<< b)) != 0) = w.testBit b := by
  rw [Nat.shiftLeft_eq, one_mul, Nat.and_two_pow]
  cases h : w.testBit b
  · simp
  · simp

theorem has_iff (m : ComponentMask) (i : Nat) :
    m.has i = true ↔
      i / 64 < m.words.length ∧ (m.words.getD (i / 64) 0).testBit (i % 64) = true := by
  unfold ComponentMask.has
  by_cases h : m.words.length ≤ i / 64
  · simp [h]
  · push_neg at h
    rw [if_neg (by omega), land_shift_eq_testBit]
    simp [h]

theorem getD_mem_of_lt {l : List Nat} {j : Nat} (h : j < l.length) : l.getD j 0 ∈ l := by
  rw [List.getD_eq_getElem _ _ h]
  exact List.getElem_mem h

theorem containsAll_iff (A B : ComponentMask) (hB : B.wf) :
    A.containsAll B = true ↔ ∀ i, B.has i = true → A.has i = true := by
  unfold ComponentMask.containsAll
  rw [List.all_eq_true]
  constructor
  · intro h i hBi
    rw [has_iff] at hBi ⊢
    obtain ⟨hj, hbit⟩ := hBi
    have hjn : i / 64 ∈ List.range (max A.words.length B.words.length) := by
      rw [List.mem_range]; omega
    have hw := h _ hjn
    simp only [beq_iff_eq] at hw
    have hbitA : (A.words.getD (i / 64) 0).testBit (i % 64) = true := by
      have h2 : ((A.words.getD (i / 64) 0) &&& (B.words.getD (i / 64) 0)).testBit (i % 64)
          = (B.words.getD (i / 64) 0).testBit (i % 64) := by rw [hw]
      rw [Nat.testBit_land, hbit, Bool.and_true] at h2
      exact h2
    refine ⟨?_, hbitA⟩
    by_contra hlen
    push_neg at hlen
    rw [List.getD_eq_default _ _ hlen] at hbitA
    simp [Nat.zero_testBit] at hbitA
  · intro h j hj
    simp only [beq_iff_eq]
    apply Nat.eq_of_testBit_eq
    intro pos
    rw [Nat.testBit_land]
    cases hb : (B.words.getD j 0).testBit pos
    · simp
    · have hjB : j < B.words.length := by
        by_contra hc
        push_neg at hc
        rw [List.getD_eq_default _ _ hc] at hb
        simp [Nat.zero_testBit] at hb
      have hpos : pos < 64 := by
        by_contra hc
        push_neg at hc
        have hlt : B.words.getD j 0 < 2 ^ pos :=
          lt_of_lt_of_le (hB _ (getD_mem_of_lt hjB)) (Nat.pow_le_pow_right (by norm_num) hc)
        rw [Nat.testBit_eq_false_of_lt hlt] at hb
        exact Bool.false_ne_true hb
      have hhasB : B.has (64 * j + pos) = true := by
        rw [has_iff]
        have hdiv : (64 * j + pos) / 64 = j := by omega
        have hmod : (64 * j + pos) % 64 = pos := by omega
        rw [hdiv, hmod]
        exact ⟨hjB, hb⟩
      have hA := h _ hhasB
      rw [has_iff] at hA
      have hdiv : (64 * j + pos) / 64 = j := by omega
      have hmod : (64 * j + pos) % 64 = pos := by omega
      rw [hdiv, hmod] at hA
      rw [hA.2]
      simp

theorem containsNone_iff (A B : ComponentMask) (hA : A.wf) :
    A.containsNone B = true ↔ ∀ i, ¬(A.has i = true ∧ B.has i = true) := by
  unfold ComponentMask.containsNone
  rw [List.all_eq_true]
  constructor
  · intro h i ⟨hAi, hBi⟩
    rw [has_iff] at hAi hBi
    have hjn : i / 64 ∈ List.range (max A.words.length B.words.length) := by
      rw [List.mem_range]; omega
    have hw := h _ hjn
    simp only [beq_iff_eq] at hw
    have h2 : ((A.words.getD (i / 64) 0) &&& (B.words.getD (i / 64) 0)).testBit (i % 64)
        = false := by rw [hw]; exact Nat.zero_testBit _
    rw [Nat.testBit_land, hAi.2, hBi.2] at h2
    simp at h2
  · intro h j hj
    simp only [beq_iff_eq]
    apply Nat.eq_of_testBit_eq
    intro pos
    rw [Nat.testBit_land, Nat.zero_testBit]
    cases ha : (A.words.getD j 0).testBit pos
    · simp
    · cases hb : (B.words.getD j 0).testBit pos
      · simp
      · exfalso
        have hjA : j < A.words.length := by
          by_contra hc
          push_neg at hc
          rw [List.getD_eq_default _ _ hc] at ha
          simp [Nat.zero_testBit] at ha
        have hjB : j < B.words.length := by
          by_contra hc
          push_neg at hc
          rw [List.getD_eq_default _ _ hc] at hb
          simp [Nat.zero_testBit] at hb
        have hpos : pos < 64 := by
          by_contra hc
          push_neg at hc
          have hlt : A.words.getD j 0 < 2 ^ pos :=
            lt_of_lt_of_le (hA _ (getD_mem_of_lt hjA)) (Nat.pow_le_pow_right (by norm_num) hc)
          rw [Nat.testBit_eq_false_of_lt hlt] at ha
          exact Bool.false_ne_true ha
        have hdiv : (64 * j + pos) / 64 = j := by omega
        have hmod : (64 * j + pos) % 64 = pos := by omega
        refine h (64 * j + pos) ⟨?_, ?_⟩ <;> rw [has_iff, hdiv, hmod]
        · exact ⟨hjA, ha⟩
        · exact ⟨hjB, hb⟩

theorem ensureBit_getD (m : ComponentMask) (id j : Nat) :
    (m.ensureBit id).words.getD j 0 = m.words.getD j 0 := by
  unfold ComponentMask.ensureBit
  dsimp only
  split
  · by_cases hj : j < m.words.length
    · exact List.getD_append _ _ _ _ hj
    · push_neg at hj
      rw [List.getD_append_right _ _ _ _ hj, List.getD_eq_default _ _ hj]
      by_cases h2 : j - m.words.length <
          (List.replicate (id / 64 + 1 - m.words.length) (0 : Nat)).length
      · rw [List.getD_eq_getElem _ _ h2]
        exact List.getElem_replicate _ _
      · push_neg at h2
        exact List.getD_eq_default _ _ h2
  · rfl

theorem ensureBit_length (m : ComponentMask) (id : Nat) :
    (m.ensureBit id).words.length = max m.words.length (id / 64 + 1) := by
  unfold ComponentMask.ensureBit
  dsimp only
  split <;> rename_i h <;> simp <;> omega

theorem set_length (m : ComponentMask) (id : Nat) :
    (m.set id).words.length = max m.words.length (id / 64 + 1) := by
  unfold ComponentMask.set
  simp [ensureBit_length]

theorem set_getD (m : ComponentMask) (id j : Nat) :
    (m.set id).words.getD j 0 =
      if j = id / 64 then (m.words.getD j 0) ||| (1 <<< (id % 64)) else m.words.getD j 0 := by
  have hl : id / 64 < (m.ensureBit id).words.length := by
    rw [ensureBit_length]; omega
  unfold ComponentMask.set
  by_cases h : j = id / 64
  · subst h
    rw [if_pos rfl]
    rw [List.getD_eq_getElem _ _ (by simpa using hl)]
    rw [List.getElem_set_self _, ensureBit_getD]
  · rw [if_neg h]
    by_cases hj : j < (m.ensureBit id).words.length
    · rw [List.getD_eq_getElem _ _ (by simpa using hj),
        List.getElem_set_ne (by omega) _]
      rw [← List.getD_eq_getElem _ _ hj, ensureBit_getD]
    · push_neg at hj
      rw [List.getD_eq_default _ _ (by simpa using hj), ← ensureBit_getD m id j,
        List.getD_eq_default _ _ hj]

theorem foldl_set_getD_testBit (l : List Nat) (m : ComponentMask) (j b : Nat) :
    ((l.foldl (fun m id => m.set id) m).words.getD j 0).testBit b =
      ((m.words.getD j 0).testBit b || decide (b < 64 ∧ (64 * j + b) ∈ l)) := by
  induction l generalizing m with
  | nil => simp
  | cons id rest ih =>
    rw [List.foldl_cons, ih, set_getD]
    by_cases hj : j = id / 64
    · rw [if_pos hj, Nat.testBit_lor, Nat.shiftLeft_eq, one_mul]
      have htp : Nat.testBit (2 ^ (id % 64)) b = decide (id % 64 = b) := by
        by_cases hb : id % 64 = b
        · subst hb; simp [Nat.testBit_two_pow_self]
        · simp [Nat.testBit_two_pow_of_ne hb, hb]
      rw [htp, Bool.eq_iff_iff]
      simp only [Bool.or_eq_true, decide_eq_true_eq, List.mem_cons]
      constructor
      · rintro ((hw | hid) | ⟨hb, hmem⟩)
        · exact Or.inl hw
        · exact Or.inr ⟨by omega, Or.inl (by omega)⟩
        · exact Or.inr ⟨hb, Or.inr hmem⟩
      · rintro (hw | ⟨hb, (hid | hmem)⟩)
        · exact Or.inl (Or.inl hw)
        · exact Or.inl (Or.inr (by omega))
        · exact Or.inr ⟨hb, hmem⟩
    · rw [if_neg hj, Bool.eq_iff_iff]
      simp only [Bool.or_eq_true, decide_eq_true_eq, List.mem_cons]
      constructor
      · rintro (hw | ⟨hb, hmem⟩)
        · exact Or.inl hw
        · exact Or.inr ⟨hb, Or.inr hmem⟩
      · rintro (hw | ⟨hb, (hid | hmem)⟩)
        · exact Or.inl hw
        · exact absurd hid (by omega)
        · exact Or.inr ⟨hb, hmem⟩

theorem foldl_set_length_le (l : List Nat) (m : ComponentMask) (k : Nat) :
    (l.foldl (fun m id => m.set id) m).words.length ≤ k ↔
      (m.words.length ≤ k ∧ ∀ x ∈ l, x / 64 + 1 ≤ k) := by
  induction l generalizing m with
  | nil => simp
  | cons id rest ih =>
    rw [List.foldl_cons, ih, set_length]
    simp only [List.mem_cons]
    constructor
    · rintro ⟨h1, h2⟩
      refine ⟨by omega, ?_⟩
      rintro x (rfl | hx)
      · omega
      · exact h2 x hx
    · rintro ⟨h1, h2⟩
      refine ⟨?_, fun x hx => h2 x (Or.inr hx)⟩
      have := h2 id (Or.inl rfl)
      omega

theorem fromIds_eq_of_mem_iff (l1 l2 : List Nat)
    (h : ∀ x, x ∈ l1 ↔ x ∈ l2) :
    ComponentMask.fromIds l1 = ComponentMask.fromIds l2 := by
  unfold ComponentMask.fromIds
  have hmaskext : ∀ (a b : ComponentMask), a.words = b.words → a = b := by
    intro a b hab
    cases a
    cases b
    simpa using hab
  have hlen : ∀ (a b : List Nat), (∀ x, x ∈ a ↔ x ∈ b) →
      (a.foldl (fun (m : ComponentMask) id => m.set id) ⟨[]⟩).words.length ≤
        (b.foldl (fun (m : ComponentMask) id => m.set id) ⟨[]⟩).words.length := by
    intro a b hab
    have hb := (foldl_set_length_le b ⟨[]⟩ _).mp (le_refl _)
    rw [foldl_set_length_le]
    exact ⟨by simp, fun x hx => hb.2 x ((hab x).mp hx)⟩
  have hlen12 : (l1.foldl (fun (m : ComponentMask) id => m.set id) ⟨[]⟩).words.length =
      (l2.foldl (fun (m : ComponentMask) id => m.set id) ⟨[]⟩).words.length :=
    le_antisymm (hlen l1 l2 h) (hlen l2 l1 fun x => (h x).symm)
  have hgetD : ∀ j, (l1.foldl (fun (m : ComponentMask) id => m.set id) ⟨[]⟩).words.getD j 0 =
      (l2.foldl (fun (m : ComponentMask) id => m.set id) ⟨[]⟩).words.getD j 0 := by
    intro j
    apply Nat.eq_of_testBit_eq
    intro b
    rw [foldl_set_getD_testBit, foldl_set_getD_testBit]
    simp [h]
  apply hmaskext
  apply List.ext_getElem hlen12
  intro n h1 h2
  have hg := hgetD n
  rwa [List.getD_eq_getElem _ _ h1, List.getD_eq_getElem _ _ h2] at hg

theorem findId_cons_self (name : String) (id : Nat) (rest : List (String × Nat))
    (v : List String) :
    (ComponentRegistry.mk ((name, id) :: rest) v).findId name = some id := by
  simp [ComponentRegistry.findId, List.find?]

/-- C9: `registerComponent` is idempotent (two calls with the same name
return the same ID), a never-seen name gets the ID `count()` held before the
call (sequential first-seen order), and `ensureId` on an unregistered name
behaves exactly as `registerComponent`, returning that same fresh ID. -/
theorem claim_C9_registry_idempotent_sequential :
    ∀ (r : ComponentRegistry) (name : String),
      (((r.registerComponent name).2.registerComponent name).1 =
        (r.registerComponent name).1) ∧
      (r.findId name = none → (r.registerComponent name).1 = r.count) ∧
      (r.findId name = none →
        r.ensureId name = r.registerComponent name ∧ (r.ensureId name).1 = r.count) := by
  intro r name
  cases h : r.findId name with
  | some id =>
    refine ⟨?_, ?_, ?_⟩
    · simp [ComponentRegistry.registerComponent, h]
    · intro hc; simp [h] at hc
    · intro hc; simp [h] at hc
  | none =>
    refine ⟨?_, ?_, ?_⟩
    · simp only [ComponentRegistry.registerComponent, h]
      rw [findId_cons_self]
    · intro _
      simp [ComponentRegistry.registerComponent, h, ComponentRegistry.count]
    · intro _
      constructor
      · simp [ComponentRegistry.ensureId, h]
      · simp [ComponentRegistry.ensureId, ComponentRegistry.registerComponent, h,
          ComponentRegistry.count]

/-- Witness for C9 at a registry holding one component and a fresh name. -/
theorem claim_C9_witness :
    (sampleRegistry.findId "Velocity" = none) ∧
      ((sampleRegistry.registerComponent "Velocity").1 = sampleRegistry.count) ∧
      (sampleRegistry.ensureId "Velocity" = sampleRegistry.registerComponent "Velocity" ∧
        (sampleRegistry.ensureId "Velocity").1 = sampleRegistry.count) :=
  ⟨by decide,
   (claim_C9_registry_idempotent_sequential sampleRegistry "Velocity").2.1 (by decide),
   (claim_C9_registry_idempotent_sequential sampleRegistry "Velocity").2.2 (by decide)⟩

/-- C8: `containsAll` holds iff every bit of the right mask is set in the
left one, `containsNone` holds iff the two masks share no bit — missing
trailing words reading as zero on either side, including when the left mask
is the shorter one — and `matches` is exactly
`containsAll required && containsNone excluded`. -/
theorem claim_C8_mask_containment_laws :
    ∀ (A B : ComponentMask), A.wf → B.wf →
      ((A.containsAll B = true ↔ ∀ i, B.has i = true → A.has i = true) ∧
       (A.containsNone B = true ↔ ∀ i, ¬(A.has i = true ∧ B.has i = true)) ∧
       (∀ (required excluded : ComponentMask),
         A.matches required excluded = (A.containsAll required && A.containsNone excluded))) := by
  intro A B hA hB
  exact ⟨containsAll_iff A B hB, containsNone_iff A B hA, fun _ _ => rfl⟩

/-- Witness for C8: a one-word mask against a two-word mask (the left
operand has fewer backing words than the right). -/
theorem claim_C8_witness :
    (ComponentMask.mk [3]).wf ∧ (ComponentMask.mk [1, 0]).wf ∧
      (((ComponentMask.mk [3]).containsAll (ComponentMask.mk [1, 0]) = true ↔
        ∀ i, (ComponentMask.mk [1, 0]).has i = true →
          (ComponentMask.mk [3]).has i = true) ∧
       ((ComponentMask.mk [3]).containsNone (ComponentMask.mk [1, 0]) = true ↔
        ∀ i, ¬((ComponentMask.mk [3]).has i = true ∧
          (ComponentMask.mk [1, 0]).has i = true)) ∧
       (∀ (required excluded : ComponentMask),
         (ComponentMask.mk [3]).matches required excluded =
           ((ComponentMask.mk [3]).containsAll required &&
             (ComponentMask.mk [3]).containsNone excluded))) :=
  ⟨by unfold ComponentMask.wf; decide, by unfold ComponentMask.wf; decide,
   claim_C8_mask_containment_laws (ComponentMask.mk [3]) (ComponentMask.mk [1, 0])
     (by unfold ComponentMask.wf; decide) (by unfold ComponentMask.wf; decide)⟩

/-- C2 (counterexample): setting bit 64 and clearing it again leaves a
trailing all-zero backing word; the resulting mask has exactly the same
bit-set as `fromIds [0]` but a different (32-digit vs 16-digit) key. -/
theorem claim_C2_counterexample :
    (∀ i, ((((ComponentMask.mk []).set 0).set 64).clear 64).has i =
        (ComponentMask.fromIds [0]).has i) ∧
      ((((ComponentMask.mk []).set 0).set 64).clear 64).toKey ≠
        (ComponentMask.fromIds [0]).toKey := by
  constructor
  · have hw : (((ComponentMask.mk []).set 0).set 64).clear 64 = ComponentMask.mk [1, 0] := by
      decide
    have hw2 : ComponentMask.fromIds [0] = ComponentMask.mk [1] := by decide
    rw [hw, hw2]
    intro i
    unfold ComponentMask.has
    rcases Nat.lt_or_ge (i / 64) 1 with h | h
    · have h0 : i / 64 = 0 := by omega
      simp [h0]
    · rcases Nat.lt_or_ge (i / 64) 2 with h2 | h2
      · have h1 : i / 64 = 1 := by omega
        simp [h1]
      · have hb1 : (2 : Nat) ≤ i / 64 := h2
        have hb2 : (1 : Nat) ≤ i / 64 := by omega
        simp [hb1, hb2]
  · decide

/-- C2 (amended): masks built by `fromIds` from the same ID set in any two
insertion orders (duplicates allowed) are equal, so their keys coincide;
trailing all-zero words, however, do lengthen the key. -/
theorem claim_C2_toKey_insertion_order_independent :
    ∀ (l1 l2 : List Nat), (∀ x, x ∈ l1 ↔ x ∈ l2) →
      (ComponentMask.fromIds l1).toKey = (ComponentMask.fromIds l2).toKey := by
  intro l1 l2 h
  rw [fromIds_eq_of_mem_iff l1 l2 h]

/-- Witness for the amended C2 at two orderings (with a duplicate) of the
ID set with members 0 and 65. -/
theorem claim_C2_witness :
    (∀ x, x ∈ [0, 65] ↔ x ∈ [65, 0, 0]) ∧
      (ComponentMask.fromIds [0, 65]).toKey = (ComponentMask.fromIds [65, 0, 0]).toKey :=
  ⟨fun x => by constructor <;> (intro h; simp at h ⊢; omega),
   claim_C2_toKey_insertion_order_independent [0, 65] [65, 0, 0]
     (fun x => by constructor <;> (intro h; simp at h ⊢; omega))⟩

end ECS

namespace SModel

theorem str_append_ne_empty (s t : String) (hs : s.length ≠ 0) : (s ++ t) ≠ "" := by
  intro hc
  have hl := congrArg String.length hc
  rw [String.length_append] at hl
  simp at hl
  omega

theorem isHeaderCompatible_iff (h : SModelHeader) :
    isHeaderCompatible h = true ↔
      (h.magic = SMODEL_MAGIC ∧ h.versionMajor = SMODEL_VERSION_MAJOR ∧
        SMODEL_VERSION_MINOR ≤ h.versionMinor) := by
  unfold isHeaderCompatible
  repeat' split
  all_goals simp_all

theorem str_append_len_ne (s t : String) (hs : s.length ≠ 0) : (s ++ t).length ≠ 0 := by
  rw [String.length_append]
  omega

theorem checkMeshes_error_ne (bs : Nat) (ms : List SModelMeshRecord) (i : Nat) (e : String)
    (h : checkMeshes bs ms i = some e) : e ≠ "" := by
  induction ms generalizing i with
  | nil => simp [checkMeshes] at h
  | cons m rest ih =>
    unfold checkMeshes at h
    repeat' split at h
    all_goals first
      | exact ih _ h
      | (injection h with h; subst h
         exact str_append_ne_empty _ _ (str_append_len_ne _ _ (by decide)))

theorem checkTextures_error_ne (bs : Nat) (ts : List SModelTextureRecord) (i : Nat) (e : String)
    (h : checkTextures bs ts i = some e) : e ≠ "" := by
  induction ts generalizing i with
  | nil => simp [checkTextures] at h
  | cons t rest ih =>
    unfold checkTextures at h
    split at h
    · injection h with h; subst h
      exact str_append_ne_empty _ _ (str_append_len_ne _ _ (by decide))
    · exact ih _ h

theorem checkPrimitives_error_ne (mc matc : Nat) (ps : List SModelPrimitiveRecord) (i : Nat)
    (e : String) (h : checkPrimitives mc matc ps i = some e) : e ≠ "" := by
  induction ps generalizing i with
  | nil => simp [checkPrimitives] at h
  | cons p rest ih =>
    unfold checkPrimitives at h
    repeat' split at h
    all_goals first
      | exact ih _ h
      | (injection h with h; subst h
         exact str_append_ne_empty _ _ (str_append_len_ne _ _ (by decide)))

theorem checkMaterials_error_ne (tc : Nat) (ms : List SModelMaterialRecord) (i : Nat)
    (e : String) (h : checkMaterials tc ms i = some e) : e ≠ "" := by
  induction ms generalizing i with
  | nil => simp [checkMaterials] at h
  | cons m rest ih =>
    unfold checkMaterials at h
    repeat' split at h
    all_goals first
      | exact ih _ h
      | (injection h with h; subst h
         simp only [materialTexError]
         exact str_append_ne_empty _ _
           (str_append_len_ne _ _ (str_append_len_ne _ _ (str_append_len_ne _ _ (by decide)))))

theorem checkNodePrimsAux_error_ne (np : List Nat) (pc fp k left : Nat) (e : String)
    (h : checkNodePrimsAux np pc fp k left = some e) : e ≠ "" := by
  induction left generalizing k with
  | zero => simp [checkNodePrimsAux] at h
  | succ n ih =>
    unfold checkNodePrimsAux at h
    split at h
    · injection h with h; subst h; decide
    · exact ih _ h

theorem checkNodes_error_ne (nc ic pc : Nat) (np : List Nat) (ns : List SModelNodeRecord)
    (e : String) (h : checkNodes nc ic pc np ns = some e) : e ≠ "" := by
  induction ns with
  | nil => simp [checkNodes] at h
  | cons nr rest ih =>
    unfold checkNodes at h
    repeat' split at h
    all_goals first
      | exact ih h
      | (injection h with h; subst h; decide)
      | (rename_i heq; injection h with h; subst h
         exact checkNodePrimsAux_error_ne _ _ _ _ _ _ heq)

theorem crossValidateRecords_error_ne (f : SModelFileData) (v : SModelFileView)
    (h : (crossValidateRecords f v).1 = false) : (crossValidateRecords f v).2.1 ≠ "" := by
  unfold crossValidateRecords at h ⊢
  dsimp only at h ⊢
  repeat' split at h <;> try split
  all_goals simp_all
  all_goals first
    | (rename_i he; exact checkMeshes_error_ne _ _ _ _ he)
    | (rename_i he; exact checkTextures_error_ne _ _ _ _ he)
    | (rename_i he; exact checkPrimitives_error_ne _ _ _ _ _ he)
    | (rename_i he; exact checkMaterials_error_ne _ _ _ _ he)
    | (rename_i he; exact checkNodes_error_ne _ _ _ _ _ _ he)

end SModel

namespace SModel

theorem snd_fst_ne_empty (b : Bool) (s : String) (v : SModelFileView) (hs : s ≠ "") :
    ((b, s, v) : Bool × String × SModelFileView).2.1 ≠ "" := hs

theorem tableRangeError_ne_empty (a b c d : Nat) : tableRangeError a b c d ≠ "" := by
  unfold tableRangeError
  exact str_append_ne_empty _ _
    (str_append_len_ne _ _ (str_append_len_ne _ _ (str_append_len_ne _ _
      (str_append_len_ne _ _ (by decide)))))

theorem load_cases (f : SModelFileData) (vIn : SModelFileView) :
    ((LoadSModelFile f vIn).1 = true →
      isHeaderCompatible f.header = true ∧
        (f.header.fileSizeBytes = 0 ∨ f.header.fileSizeBytes = f.fileSize)) ∧
    ((LoadSModelFile f vIn).1 = false → (LoadSModelFile f vIn).2.1 ≠ "") := by
  unfold LoadSModelFile
  dsimp only
  by_cases h1 : f.fileSize = 0
  · rw [if_pos h1]
    exact ⟨fun h => absurd h (by simp), fun _ => snd_fst_ne_empty _ _ _ (by decide)⟩
  rw [if_neg h1]
  by_cases h2 : f.fileSize < sModelHeaderSize
  · rw [if_pos h2]
    exact ⟨fun h => absurd h (by simp), fun _ => snd_fst_ne_empty _ _ _ (by decide)⟩
  rw [if_neg h2]
  by_cases h3 : isHeaderCompatible f.header = false
  · rw [if_pos h3]
    exact ⟨fun h => absurd h (by simp), fun _ => snd_fst_ne_empty _ _ _ (by decide)⟩
  rw [if_neg h3]
  have hcompat : isHeaderCompatible f.header = true := by
    cases hh : isHeaderCompatible f.header
    · exact absurd hh h3
    · rfl
  by_cases h4 : f.header.fileSizeBytes ≠ 0 ∧ f.header.fileSizeBytes ≠ f.fileSize
  · rw [if_pos h4]
    exact ⟨fun h => absurd h (by simp), fun _ => snd_fst_ne_empty _ _ _ (by decide)⟩
  rw [if_neg h4]
  have hsize : f.header.fileSizeBytes = 0 ∨ f.header.fileSizeBytes = f.fileSize := by tauto
  by_cases h5 : isRangeInsideFile f.header.stringTableOffset f.header.stringTableSize
      f.fileSize = false
  · rw [if_pos h5]
    exact ⟨fun h => absurd h (by simp), fun _ => snd_fst_ne_empty _ _ _ (by decide)⟩
  rw [if_neg h5]
  by_cases h6 : isRangeInsideFile f.header.blobOffset f.header.blobSize f.fileSize = false
  · rw [if_pos h6]
    exact ⟨fun h => absurd h (by simp), fun _ => snd_fst_ne_empty _ _ _ (by decide)⟩
  rw [if_neg h6]
  by_cases h7 : tableRangeValid sModelMeshRecordSize f.header.meshesOffset f.header.meshCount
      f.fileSize = false
  · rw [if_pos h7]
    exact ⟨fun h => absurd h (by simp), fun _ => snd_fst_ne_empty _ _ _ (tableRangeError_ne_empty _ _ _ _)⟩
  rw [if_neg h7]
  by_cases h8 : tableRangeValid sModelPrimitiveRecordSize f.header.primitivesOffset
      f.header.primitiveCount f.fileSize = false
  · rw [if_pos h8]
    exact ⟨fun h => absurd h (by simp), fun _ => snd_fst_ne_empty _ _ _ (tableRangeError_ne_empty _ _ _ _)⟩
  rw [if_neg h8]
  by_cases h9 : tableRangeValid sModelMaterialRecordSize f.header.materialsOffset
      f.header.materialCount f.fileSize = false
  · rw [if_pos h9]
    exact ⟨fun h => absurd h (by simp), fun _ => snd_fst_ne_empty _ _ _ (tableRangeError_ne_empty _ _ _ _)⟩
  rw [if_neg h9]
  by_cases h10 : tableRangeValid sModelTextureRecordSize f.header.texturesOffset
      f.header.textureCount f.fileSize = false
  · rw [if_pos h10]
    exact ⟨fun h => absurd h (by simp), fun _ => snd_fst_ne_empty _ _ _ (tableRangeError_ne_empty _ _ _ _)⟩
  rw [if_neg h10]
  by_cases h11 : 0 < f.header.nodeCount ∧ tableRangeValid sModelNodeRecordSize
      f.header.nodesOffset f.header.nodeCount f.fileSize = false
  · rw [if_pos h11]
    exact ⟨fun h => absurd h (by simp), fun _ => snd_fst_ne_empty _ _ _ (tableRangeError_ne_empty _ _ _ _)⟩
  rw [if_neg h11]
  by_cases h12 : 0 < f.header.nodePrimitiveIndexCount ∧ isRangeInsideFile
      f.header.nodePrimitiveIndicesOffset ((f.header.nodePrimitiveIndexCount * 4) % U64)
      f.fileSize = false
  · rw [if_pos h12]
    exact ⟨fun h => absurd h (by simp), fun _ => snd_fst_ne_empty _ _ _ (by decide)⟩
  rw [if_neg h12]
  exact ⟨fun _ => ⟨hcompat, hsize⟩, fun h => crossValidateRecords_error_ne f _ h⟩

end SModel

namespace SModel

/-- C5: the loader returns false whenever the magic differs, the major
version differs, the minor version is older than expected, or a nonzero
declared `fileSizeBytes` differs from the actual byte count; and the header
gate `isHeaderCompatible` passes any file whose minor version is at least
the expected one (forward-compatible). -/
theorem claim_C5_version_and_size_gate :
    (∀ (f : SModelFileData) (vIn : SModelFileView),
      (f.header.magic ≠ SMODEL_MAGIC ∨ f.header.versionMajor ≠ SMODEL_VERSION_MAJOR ∨
        f.header.versionMinor < SMODEL_VERSION_MINOR ∨
        (f.header.fileSizeBytes ≠ 0 ∧ f.header.fileSizeBytes ≠ f.fileSize)) →
      (LoadSModelFile f vIn).1 = false) ∧
    (∀ h : SModelHeader, h.magic = SMODEL_MAGIC → h.versionMajor = SMODEL_VERSION_MAJOR →
      SMODEL_VERSION_MINOR ≤ h.versionMinor → isHeaderCompatible h = true) := by
  constructor
  · intro f vIn hbad
    cases hres : (LoadSModelFile f vIn).1
    · rfl
    · exfalso
      obtain ⟨hcompat, hsize⟩ := (load_cases f vIn).1 hres
      rw [isHeaderCompatible_iff] at hcompat
      rcases hbad with hb | hb | hb | hb
      · exact hb hcompat.1
      · exact hb hcompat.2.1
      · omega
      · tauto
  · intro h hm hj hmin
    rw [isHeaderCompatible_iff]
    exact ⟨hm, hj, hmin⟩

/-- Witness for C5: a zero-magic file is rejected; a header of version 2.7
passes the compatibility gate. -/
theorem claim_C5_witness :
    (badMagicFile.header.magic ≠ SMODEL_MAGIC ∨
      badMagicFile.header.versionMajor ≠ SMODEL_VERSION_MAJOR ∨
      badMagicFile.header.versionMinor < SMODEL_VERSION_MINOR ∨
      (badMagicFile.header.fileSizeBytes ≠ 0 ∧
        badMagicFile.header.fileSizeBytes ≠ badMagicFile.fileSize)) ∧
    (LoadSModelFile badMagicFile emptyView).1 = false ∧
    (newerMinorHeader.magic = SMODEL_MAGIC ∧
      newerMinorHeader.versionMajor = SMODEL_VERSION_MAJOR ∧
      SMODEL_VERSION_MINOR ≤ newerMinorHeader.versionMinor) ∧
    isHeaderCompatible newerMinorHeader = true :=
  ⟨by decide,
   claim_C5_version_and_size_gate.1 badMagicFile emptyView (by decide),
   by decide,
   claim_C5_version_and_size_gate.2 newerMinorHeader (by decide) (by decide) (by decide)⟩

/-- C4 (counterexample): a file failing only the late mesh cross-validation
(`vertexCount == 0`) is rejected, yet the view handed back to the caller is
populated: the header pointer and the table/string/blob pointers are all
set. -/
theorem claim_C4_counterexample :
    (LoadSModelFile badMeshFile emptyView).1 = false ∧
      (LoadSModelFile badMeshFile emptyView).2.2.header = some badMeshFile.header ∧
      (LoadSModelFile badMeshFile emptyView).2.2.meshesSet = true ∧
      (LoadSModelFile badMeshFile emptyView).2.2.stringTableSet = true :=
  ⟨rfl, rfl, rfl, rfl⟩

/-- C4 (amended): the out-view is reset at the very start (the result never
depends on the caller's incoming view), and every failure returns false with
a nonempty error string; but the view returned on failure is not empty in
general — pointers assigned before the failing check stay set. -/
theorem claim_C4_reset_and_error_reporting :
    ∀ (f : SModelFileData) (vIn vIn2 : SModelFileView),
      (LoadSModelFile f vIn = LoadSModelFile f vIn2) ∧
      ((LoadSModelFile f vIn).1 = false → (LoadSModelFile f vIn).2.1 ≠ "") := by
  intro f vIn vIn2
  exact ⟨rfl, (load_cases f vIn).2⟩

/-- Witness for the amended C4: a stale incoming view does not change the
result, and the rejection of `badMeshFile` carries a nonempty error. -/
theorem claim_C4_witness :
    (LoadSModelFile badMeshFile staleView = LoadSModelFile badMeshFile emptyView) ∧
      (LoadSModelFile badMeshFile staleView).1 = false ∧
      (LoadSModelFile badMeshFile staleView).2.1 ≠ "" :=
  ⟨(claim_C4_reset_and_error_reporting badMeshFile staleView emptyView).1,
   rfl,
   (claim_C4_reset_and_error_reporting badMeshFile staleView emptyView).2 rfl⟩

/-- C1: the loader accepts `childRangeFile` (returns true) although the
root node's declared child range `[0, 1)` does not lie within the
node-child-index table, whose count is 0 — the loader checks
`firstChild + childCount` against `nodeCount` instead and never resolves
child indices through the table. -/
theorem claim_C1_loader_accepts_unresolvable_child_range :
    (LoadSModelFile childRangeFile emptyView).1 = true ∧
      0 < (childRangeFile.nodes.getD 0 {}).childCount ∧
      childRangeFile.header.nodeChildIndicesCount <
        (childRangeFile.nodes.getD 0 {}).firstChildIndex +
          (childRangeFile.nodes.getD 0 {}).childCount :=
  ⟨rfl, by decide, by decide⟩

/-- C3 (counterexample): the loader accepts `wrapMeshFile` although its
mesh's vertex slice `[2^64 - 4, 2^64)` lies far outside the (empty) blob:
the `uint64_t` sum `vertexDataOffset + vertexDataSize` wraps to 0 and the
slice check passes. -/
theorem claim_C3_counterexample :
    (LoadSModelFile wrapMeshFile emptyView).1 = true ∧
      U64 ≤ (wrapMeshFile.meshes.getD 0 {}).vertexDataOffset +
        (wrapMeshFile.meshes.getD 0 {}).vertexDataSize ∧
      wrapMeshFile.header.blobSize <
        (wrapMeshFile.meshes.getD 0 {}).vertexDataOffset +
          (wrapMeshFile.meshes.getD 0 {}).vertexDataSize :=
  ⟨rfl, by decide, by decide⟩

/-- C3 (amended): the `isRangeInsideFile` checks (sections and, via
`tableRangeValid`, record tables) are overflow-safe whenever the actual file
size is below `2^63`: they accept exactly the ranges whose true
(unbounded) `offset + size` fits in the file; the mesh/texture blob-slice
checks, by contrast, use raw `uint64_t` addition and can wrap (see the
counterexample). -/
theorem claim_C3_isRangeInsideFile_overflow_safe :
    ∀ (first size fileSize : Nat), first < U64 → size < U64 → fileSize < 2 ^ 63 →
      (isRangeInsideFile first size fileSize = true ↔ first + size ≤ fileSize) := by
  intro b s fs hb hs hfs
  have h64 : U64 = 18446744073709551616 := by norm_num [U64]
  have h63 : (2 : Nat) ^ 63 = 9223372036854775808 := by norm_num
  unfold isRangeInsideFile
  by_cases h1 : b > fs
  · simp [h1]
    omega
  · by_cases h2 : s > fs
    · simp [h1, h2]
      omega
    · have hmod : (b + s) % U64 = b + s := Nat.mod_eq_of_lt (by omega)
      simp only [if_neg h1, if_neg h2, hmod]
      by_cases h3 : b + s > fs
      · simp [h3]
      · simp [h3]
        omega

/-- Witness for the amended C3 at a small in-bounds range. -/
theorem claim_C3_witness :
    ((5 : Nat) < U64 ∧ (7 : Nat) < U64 ∧ (100 : Nat) < 2 ^ 63) ∧
      (isRangeInsideFile 5 7 100 = true ↔ 5 + 7 ≤ 100) :=
  ⟨by decide,
   claim_C3_isRangeInsideFile_overflow_safe 5 7 100 (by decide) (by decide) (by decide)⟩

end SModel

namespace SModel

/-- C10: a file consisting of only a valid v2.1 header — every count zero,
every table/string/blob offset and size zero, `fileSizeBytes` zero or equal
to the header size — is accepted, and the caller receives the success view
with no node/record content (`nodesSet`/`nodePrimitiveIndicesSet` false
since the counts are zero). -/
theorem claim_C10_header_only_file_accepted :
    ∀ (vIn : SModelFileView) (h : SModelHeader),
      h.magic = SMODEL_MAGIC → h.versionMajor = SMODEL_VERSION_MAJOR →
      SMODEL_VERSION_MINOR ≤ h.versionMinor →
      h.meshCount = 0 → h.primitiveCount = 0 → h.materialCount = 0 → h.textureCount = 0 →
      h.nodeCount = 0 → h.nodePrimitiveIndexCount = 0 →
      h.meshesOffset = 0 → h.primitivesOffset = 0 → h.materialsOffset = 0 →
      h.texturesOffset = 0 → h.nodesOffset = 0 → h.nodePrimitiveIndicesOffset = 0 →
      h.stringTableOffset = 0 → h.stringTableSize = 0 → h.blobOffset = 0 → h.blobSize = 0 →
      (h.fileSizeBytes = 0 ∨ h.fileSizeBytes = sModelHeaderSize) →
      LoadSModelFile ⟨sModelHeaderSize, h, [], [], [], [], [], []⟩ vIn =
        (true, "",
          { fileBytesSize := sModelHeaderSize, header := some h,
            meshesSet := true, primitivesSet := true, materialsSet := true, texturesSet := true,
            nodesSet := false, nodePrimitiveIndicesSet := false,
            stringTableSet := true, blobSet := true }) := by
  intro vIn h hm hj hmin hc1 hc2 hc3 hc4 hc5 hc6 ho1 ho2 ho3 ho4 ho5 ho6 hs1 hs2 hb1 hb2 hfs
  have hcomp : isHeaderCompatible h = true := (isHeaderCompatible_iff h).mpr ⟨hm, hj, hmin⟩
  unfold LoadSModelFile crossValidateRecords
  dsimp only
  rcases hfs with hfs | hfs <;>
    simp [hcomp, hc1, hc2, hc3, hc4, hc5, hc6, ho1, ho2, ho3, ho4, ho5, ho6,
      hs1, hs2, hb1, hb2, hfs, isRangeInsideFile, tableRangeValid, U64,
      sModelHeaderSize, checkMeshes, checkTextures, checkPrimitives, checkMaterials,
      emptyView]

/-- Witness for C10 at the concrete empty model file. -/
theorem claim_C10_witness :
    (emptyModelFile.header.magic = SMODEL_MAGIC ∧
      emptyModelFile.header.versionMajor = SMODEL_VERSION_MAJOR ∧
      SMODEL_VERSION_MINOR ≤ emptyModelFile.header.versionMinor ∧
      emptyModelFile.header.meshCount = 0 ∧ emptyModelFile.header.nodeCount = 0 ∧
      emptyModelFile.header.fileSizeBytes = sModelHeaderSize) ∧
    (LoadSModelFile emptyModelFile emptyView).1 = true :=
  ⟨by decide,
   by
    have := claim_C10_header_only_file_accepted emptyView emptyModelFile.header
      (by decide) (by decide) (by decide) (by decide) (by decide) (by decide) (by decide)
      (by decide) (by decide) (by decide) (by decide) (by decide) (by decide) (by decide)
      (by decide) (by decide) (by decide) (by decide) (by decide) (Or.inr (by decide))
    have h2 : emptyModelFile = ⟨sModelHeaderSize, emptyModelFile.header, [], [], [], [], [], []⟩ := by
      rfl
    rw [h2, this]⟩

end SModel

namespace Verify

theorem getD_set' {α : Type} (l : List α) (k i : Nat) (v d : α) :
    (l.set k v).getD i d = if k = i ∧ k < l.length then v else l.getD i d := by
  by_cases hk : k = i ∧ k < l.length
  · obtain ⟨rfl, hlt⟩ := hk
    rw [if_pos ⟨rfl, hlt⟩, List.getD_eq_getElem _ _ (by simpa using hlt)]
    exact List.getElem_set_self _
  · rw [if_neg hk]
    by_cases hki : k = i
    · subst hki
      have hlen : l.length ≤ k := by
        by_contra hc
        push_neg at hc
        exact hk ⟨rfl, hc⟩
      rw [List.set_eq_of_length_le hlen]
    · by_cases hi : i < l.length
      · rw [List.getD_eq_getElem _ _ (by simpa using hi), List.getElem_set_ne hki _,
          ← List.getD_eq_getElem _ _ hi]
      · push_neg at hi
        rw [List.getD_eq_default _ _ (by simpa using hi), List.getD_eq_default _ _ hi]

theorem mat4_one_mul (m : Mat4) : mat4Mul mat4Id m = m := by
  cases m
  simp [mat4Mul, mat4Id]

theorem count_false_set_true_lt (l : List Bool) (i : Nat) (hi : i < l.length)
    (hf : l.getD i false = false) : (l.set i true).count false < l.count false := by
  induction l generalizing i with
  | nil => simp at hi
  | cons b t ih =>
    cases i with
    | zero =>
      simp at hf
      subst hf
      simp [List.count_cons]
    | succ n =>
      simp at hi
      have := ih n (by omega) (by simpa using hf)
      simp only [List.set]
      cases b <;> simp [List.count_cons] <;> omega

theorem count_false_le_of_pointwise (a b : List Bool) (hlen : a.length = b.length)
    (h : ∀ i, a.getD i false = true → b.getD i false = true) :
    b.count false ≤ a.count false := by
  induction a generalizing b with
  | nil =>
    cases b with
    | nil => simp
    | cons x xs => simp at hlen
  | cons x xs ih =>
    cases b with
    | nil => simp at hlen
    | cons y ys =>
      simp at hlen
      have htail : ys.count false ≤ xs.count false := by
        apply ih ys hlen
        intro i hi
        have := h (i + 1)
        simpa using this (by simpa using hi)
      have hhead := h 0
      simp at hhead
      cases x
      · cases y <;> simp [List.count_cons] <;> omega
      · have hy : y = true := hhead rfl
        subst hy
        simp [List.count_cons]
        omega

end Verify

namespace Verify

theorem getD_mem' {α : Type} (l : List α) (i : Nat) (d : α) (h : i < l.length) :
    l.getD i d ∈ l := by
  rw [List.getD_eq_getElem _ _ h]
  exact List.getElem_mem h

theorem foldl_preserve {α β : Type} (P : α → Prop) (f : α → β → α) :
    ∀ (l : List β) (s : α), P s → (∀ a b, P a → P (f a b)) → P (l.foldl f s) := by
  intro l
  induction l with
  | nil => intro s hs _; exact hs
  | cons x xs ih => intro s hs hf; exact ih (f s x) (hf s x hs) hf

theorem dfs_preserve (nodes : List ModelNode) (nc : List Nat) :
    ∀ (fuel idx : Nat) (parent : Mat4) (s : DfsState),
      (dfs nodes nc fuel idx parent s).visited.length = s.visited.length ∧
      (dfs nodes nc fuel idx parent s).expectedGlobals.length = s.expectedGlobals.length ∧
      ∀ i, s.visited.getD i false = true →
        (dfs nodes nc fuel idx parent s).visited.getD i false = true ∧
        (dfs nodes nc fuel idx parent s).expectedGlobals.getD i mat4Id =
          s.expectedGlobals.getD i mat4Id := by
  intro fuel
  induction fuel with
  | zero => intro idx parent s; exact ⟨rfl, rfl, fun i hi => ⟨hi, rfl⟩⟩
  | succ fuel ih =>
    intro idx parent s
    simp only [dfs]
    split
    · exact ⟨rfl, rfl, fun i hi => ⟨hi, rfl⟩⟩
    split
    · exact ⟨rfl, rfl, fun i hi => ⟨hi, rfl⟩⟩
    rename_i hidx hnv
    have hS3 : ∀ i, s.visited.getD i false = true →
        (s.visited.set idx true).getD i false = true ∧
        (s.expectedGlobals.set idx
          (mat4Mul parent (nodes.getD idx default).localMatrix)).getD i mat4Id =
          s.expectedGlobals.getD i mat4Id := by
      intro i hi
      constructor
      · rw [getD_set']
        split
        · rfl
        · exact hi
      · rw [getD_set']
        split
        · rename_i hcond
          obtain ⟨rfl, _⟩ := hcond
          exact absurd hi hnv
        · rfl
    split
    · exact ⟨by simp, by simp, hS3⟩
    split
    · exact ⟨by simp, by simp, hS3⟩
    · refine foldl_preserve
        (fun (st : DfsState) =>
          st.visited.length = s.visited.length ∧
          st.expectedGlobals.length = s.expectedGlobals.length ∧
          ∀ i, s.visited.getD i false = true →
            st.visited.getD i false = true ∧
            st.expectedGlobals.getD i mat4Id = s.expectedGlobals.getD i mat4Id)
        _ _ _ ⟨by simp, by simp, hS3⟩ ?_
      intro st k hP
      refine ⟨(ih _ _ st).1.trans hP.1, (ih _ _ st).2.1.trans hP.2.1, ?_⟩
      intro i hi
      obtain ⟨hv, hg⟩ := hP.2.2 i hi
      obtain ⟨hv2, hg2⟩ := (ih _ _ st).2.2 i hv
      exact ⟨hv2, hg2.trans hg⟩

theorem dfs_count_le (nodes : List ModelNode) (nc : List Nat) (fuel idx : Nat)
    (parent : Mat4) (s : DfsState) :
    (dfs nodes nc fuel idx parent s).visited.count false ≤ s.visited.count false :=
  count_false_le_of_pointwise s.visited (dfs nodes nc fuel idx parent s).visited
    (dfs_preserve nodes nc fuel idx parent s).1.symm
    (fun i hi => ((dfs_preserve nodes nc fuel idx parent s).2.2 i hi).1)

theorem dfs_of_count_false_zero (nodes : List ModelNode) (nc : List Nat)
    (fuel idx : Nat) (parent : Mat4) (s : DfsState)
    (hlen : s.visited.length = nodes.length)
    (hz : s.visited.count false = 0) :
    dfs nodes nc fuel idx parent s = s := by
  cases fuel with
  | zero => rfl
  | succ fuel =>
    simp only [dfs]
    split
    · rfl
    split
    · rfl
    · exfalso
      rename_i hidx hnv
      have hidx2 : idx < s.visited.length := by omega
      cases hb : s.visited.getD idx false
      · have hmem : false ∈ s.visited := hb ▸ getD_mem' _ _ _ hidx2
        have hpos : 0 < s.visited.count false := List.count_pos_iff.mpr hmem
        omega
      · exact hnv hb

end Verify

namespace Verify

theorem dfs_fuel_congr (nodes : List ModelNode) (nc : List Nat) :
    ∀ (f1 f2 idx : Nat) (parent : Mat4) (s : DfsState),
      s.visited.length = nodes.length →
      s.visited.count false ≤ f1 → s.visited.count false ≤ f2 →
      dfs nodes nc f1 idx parent s = dfs nodes nc f2 idx parent s := by
  intro f1
  induction f1 with
  | zero =>
    intro f2 idx parent s hlen h1 h2
    have hz : s.visited.count false = 0 := by omega
    rw [dfs_of_count_false_zero nodes nc 0 idx parent s hlen hz,
      dfs_of_count_false_zero nodes nc f2 idx parent s hlen hz]
  | succ f1 ih =>
    intro f2 idx parent s hlen h1 h2
    cases f2 with
    | zero =>
      have hz : s.visited.count false = 0 := by omega
      rw [dfs_of_count_false_zero nodes nc (f1 + 1) idx parent s hlen hz,
        dfs_of_count_false_zero nodes nc 0 idx parent s hlen hz]
    | succ f2 =>
      simp only [dfs]
      split
      · rfl
      split
      · rfl
      rename_i hidx hnv
      split
      · rfl
      split
      · rfl
      have hidx2 : idx < s.visited.length := by omega
      have hnvf : s.visited.getD idx false = false := by
        cases hb : s.visited.getD idx false
        · rfl
        · exact absurd hb hnv
      have hcount : (s.visited.set idx true).count false < s.visited.count false :=
        count_false_set_true_lt _ _ hidx2 hnvf
      have hlen2 : (s.visited.set idx true).length = nodes.length := by
        simp [hlen]
      have hfold : ∀ (l : List Nat) (st : DfsState),
          st.visited.length = nodes.length →
          st.visited.count false ≤ f1 →
          st.visited.count false ≤ f2 →
          l.foldl (fun st k =>
            dfs nodes nc f1
              (nc.getD ((nodes.getD idx default).firstChildIndex + k) 0)
              (st.expectedGlobals.getD idx mat4Id) st) st =
          l.foldl (fun st k =>
            dfs nodes nc f2
              (nc.getD ((nodes.getD idx default).firstChildIndex + k) 0)
              (st.expectedGlobals.getD idx mat4Id) st) st := by
        intro l
        induction l with
        | nil => intro st _ _ _; rfl
        | cons k ks ihl =>
          intro st hl hc1 hc2
          simp only [List.foldl_cons]
          rw [ih f2 _ _ st hl hc1 hc2]
          apply ihl
          · exact (dfs_preserve nodes nc f2 _ _ st).1.trans hl
          · exact le_trans (dfs_count_le nodes nc f2 _ _ st) hc1
          · exact le_trans (dfs_count_le nodes nc f2 _ _ st) hc2
      apply hfold
      · exact hlen2
      · dsimp only
        omega
      · dsimp only
        omega

theorem resolveWithFuel_congr (nodes : List ModelNode) (nc : List Nat) (f1 f2 : Nat)
    (h1 : nodes.length ≤ f1) (h2 : nodes.length ≤ f2) :
    resolveWithFuel nodes nc f1 = resolveWithFuel nodes nc f2 := by
  unfold resolveWithFuel
  have hfold : ∀ (l : List Nat) (st : DfsState),
      st.visited.length = nodes.length →
      st.visited.count false ≤ f1 →
      st.visited.count false ≤ f2 →
      l.foldl (fun st i =>
        if (nodes.getD i default).parentIndex = SModel.u32Max then
          dfs nodes nc f1 i mat4Id st
        else st) st =
      l.foldl (fun st i =>
        if (nodes.getD i default).parentIndex = SModel.u32Max then
          dfs nodes nc f2 i mat4Id st
        else st) st := by
    intro l
    induction l with
    | nil => intro st _ _ _; rfl
    | cons i is ihl =>
      intro st hl hc1 hc2
      simp only [List.foldl_cons]
      by_cases hroot : (nodes.getD i default).parentIndex = SModel.u32Max
      · rw [if_pos hroot, if_pos hroot, dfs_fuel_congr nodes nc f1 f2 i mat4Id st hl hc1 hc2]
        apply ihl
        · exact (dfs_preserve nodes nc f2 _ _ st).1.trans hl
        · exact le_trans (dfs_count_le nodes nc f2 _ _ st) hc1
        · exact le_trans (dfs_count_le nodes nc f2 _ _ st) hc2
      · rw [if_neg hroot, if_neg hroot]
        exact ihl st hl hc1 hc2
  apply hfold
  · simp
  · simp [List.count_replicate]
    omega
  · simp [List.count_replicate]
    omega

end Verify

namespace Verify

theorem foldl_preserve_mem {α β : Type} (P : α → Prop) (f : α → β → α) :
    ∀ (l : List β) (s : α), P s → (∀ a b, b ∈ l → P a → P (f a b)) → P (l.foldl f s) := by
  intro l
  induction l with
  | nil => intro s hs _; exact hs
  | cons x xs ih =>
    intro s hs hf
    exact ih (f s x) (hf s x (List.mem_cons_self x xs) hs)
      (fun a b hb ha => hf a b (List.mem_cons_of_mem x hb) ha)

theorem childLinksOk_spec (nodes : List ModelNode) (nc : List Nat)
    (h : childLinksOk nodes nc = true) :
    ∀ i, i < nodes.length → 0 < (nodes.getD i default).childCount →
      ∀ k, k < (nodes.getD i default).childCount →
        nc.getD ((nodes.getD i default).firstChildIndex + k) 0 < nodes.length ∧
        (nodes.getD (nc.getD ((nodes.getD i default).firstChildIndex + k) 0)
          default).parentIndex = i := by
  intro i hi hc k hk
  unfold childLinksOk at h
  rw [List.all_eq_true] at h
  have hx := h i (by rw [List.mem_range]; exact hi)
  rw [if_pos hc] at hx
  split at hx
  · exact absurd hx (by simp)
  · rw [List.all_eq_true] at hx
    have hk2 := hx k (by rw [List.mem_range]; exact hk)
    rw [Bool.and_eq_true, decide_eq_true_eq, decide_eq_true_eq] at hk2
    exact hk2

theorem dfs_inv (nodes : List ModelNode) (nc : List Nat)
    (hok : childLinksOk nodes nc = true)
    (hn : nodes.length ≤ SModel.u32Max) :
    ∀ (fuel idx : Nat) (parent : Mat4) (s : DfsState),
      s.visited.length = nodes.length →
      s.expectedGlobals.length = nodes.length →
      nodeGlobalsConsistent nodes s →
      dfsCallOk nodes idx parent s →
      nodeGlobalsConsistent nodes (dfs nodes nc fuel idx parent s) := by
  intro fuel
  induction fuel with
  | zero => intro idx parent s _ _ hinv _; exact hinv
  | succ fuel ih =>
    intro idx parent s hlen hglen hinv hpre
    simp only [dfs]
    split
    · exact hinv
    split
    · exact hinv
    rename_i hidx hnv
    push_neg at hidx
    have hnvf : s.visited.getD idx false = false := by
      cases hb : s.visited.getD idx false
      · rfl
      · exact absurd hb hnv
    have hidxv : idx < s.visited.length := by omega
    have hidxg : idx < s.expectedGlobals.length := by omega
    -- the state after marking idx and storing its global
    have hSv : ∀ j, (s.visited.set idx true).getD j false =
        if idx = j then true else s.visited.getD j false := by
      intro j
      rw [getD_set']
      by_cases hj : idx = j
      · subst hj
        rw [if_pos ⟨rfl, hidxv⟩, if_pos rfl]
      · rw [if_neg (by tauto), if_neg hj]
    have hSg : ∀ j, (s.expectedGlobals.set idx
        (mat4Mul parent (nodes.getD idx default).localMatrix)).getD j mat4Id =
        if idx = j then mat4Mul parent (nodes.getD idx default).localMatrix
        else s.expectedGlobals.getD j mat4Id := by
      intro j
      rw [getD_set']
      by_cases hj : idx = j
      · subst hj
        rw [if_pos ⟨rfl, hidxg⟩, if_pos rfl]
      · rw [if_neg (by tauto), if_neg hj]
    have hSinv : nodeGlobalsConsistent nodes
        ⟨s.expectedGlobals.set idx (mat4Mul parent (nodes.getD idx default).localMatrix),
          s.visited.set idx true⟩ := by
      intro j hj hvj
      dsimp only at hvj ⊢
      by_cases hji : idx = j
      · subst hji
        rcases hpre hidx hnvf with ⟨hroot, hpid⟩ | ⟨hnroot, hvp, hpar⟩
        · refine ⟨fun _ => ?_, fun hc => absurd hroot hc⟩
          rw [hSg, if_pos rfl, hpid]
        · refine ⟨fun hc => absurd hc hnroot, fun _ => ?_⟩
          have hpn : (nodes.getD idx default).parentIndex ≠ idx := by
            intro he
            rw [he, hnvf] at hvp
            exact Bool.false_ne_true hvp
          constructor
          · rw [hSv, if_neg (by tauto)]
            exact hvp
          · rw [hSg, if_pos rfl, hSg, if_neg (by tauto), hpar]
      · have hvj2 : s.visited.getD j false = true := by
          rw [hSv, if_neg hji] at hvj
          exact hvj
        obtain ⟨hr, hnr⟩ := hinv j hj hvj2
        constructor
        · intro hroot
          rw [hSg, if_neg hji]
          exact hr hroot
        · intro hnroot
          obtain ⟨hvp, hg⟩ := hnr hnroot
          have hpn : (nodes.getD j default).parentIndex ≠ idx := by
            intro he
            rw [he, hnvf] at hvp
            exact Bool.false_ne_true hvp
          refine ⟨?_, ?_⟩
          · rw [hSv, if_neg (fun he => hpn he.symm)]
            exact hvp
          · rw [hSg, if_neg hji, hSg, if_neg (fun he => hpn he.symm)]
            exact hg
    split
    · exact hSinv
    split
    · exact hSinv
    · rename_i hguard hbound
      push_neg at hguard
      have hcc : 0 < (nodes.getD idx default).childCount := by omega
      refine (foldl_preserve_mem
        (fun (st : DfsState) =>
          st.visited.length = nodes.length ∧
          st.expectedGlobals.length = nodes.length ∧
          st.visited.getD idx false = true ∧
          st.expectedGlobals.getD idx mat4Id =
            mat4Mul parent (nodes.getD idx default).localMatrix ∧
          nodeGlobalsConsistent nodes st)
        _ _ _ ⟨?_, ?_, ?_, ?_, hSinv⟩ ?_).2.2.2.2
      · simpa using hlen
      · simpa using hglen
      · dsimp only
        rw [hSv, if_pos rfl]
      · dsimp only
        rw [hSg, if_pos rfl]
      · intro st k hk hP
        obtain ⟨hPl, hPg, hPv, hPe, hPinv⟩ := hP
        have hkc : k < (nodes.getD idx default).childCount := List.mem_range.mp hk
        obtain ⟨hclt, hcp⟩ := childLinksOk_spec nodes nc hok idx hidx hcc k hkc
        constructor
        · exact (dfs_preserve nodes nc fuel _ _ st).1.trans hPl
        refine ⟨(dfs_preserve nodes nc fuel _ _ st).2.1.trans hPg, ?_, ?_, ?_⟩
        · exact ((dfs_preserve nodes nc fuel _ _ st).2.2 idx hPv).1
        · exact (((dfs_preserve nodes nc fuel _ _ st).2.2 idx hPv).2).trans hPe
        · apply ih _ _ st hPl hPg hPinv
          intro hclt2 hnvc
          right
          rw [hcp]
          have hidne : idx ≠ SModel.u32Max := Nat.ne_of_lt (Nat.lt_of_lt_of_le hidx hn)
          exact ⟨hidne, hPv, rfl⟩

end Verify

namespace Verify

theorem resolve_inv (nodes : List ModelNode) (nc : List Nat)
    (hok : childLinksOk nodes nc = true)
    (hn : nodes.length ≤ SModel.u32Max) :
    nodeGlobalsConsistent nodes (resolveGlobals nodes nc) := by
  unfold resolveGlobals resolveWithFuel
  refine (foldl_preserve
    (fun (st : DfsState) =>
      st.visited.length = nodes.length ∧
      st.expectedGlobals.length = nodes.length ∧
      nodeGlobalsConsistent nodes st)
    _ _ _ ⟨by simp, by simp, ?_⟩ ?_).2.2
  · intro j hj hvj
    exfalso
    have hrep : (List.replicate nodes.length false).getD j false = false := by
      by_cases hjl : j < nodes.length
      · rw [List.getD_eq_getElem _ _ (by simpa using hjl)]
        exact List.getElem_replicate _ _
      · exact List.getD_eq_default _ _ (by simpa using hjl)
    rw [hrep] at hvj
    exact Bool.false_ne_true hvj
  · intro st i hP
    obtain ⟨hPl, hPg, hPinv⟩ := hP
    by_cases hroot : (nodes.getD i default).parentIndex = SModel.u32Max
    · rw [if_pos hroot]
      refine ⟨(dfs_preserve nodes nc _ _ _ st).1.trans hPl,
        (dfs_preserve nodes nc _ _ _ st).2.1.trans hPg, ?_⟩
      apply dfs_inv nodes nc hok hn _ _ _ st hPl hPg hPinv
      intro _ _
      exact Or.inl ⟨hroot, rfl⟩
    · rw [if_neg hroot]
      exact ⟨hPl, hPg, hPinv⟩

/-- C6: on a node graph accepted by the verifier's child-link validation,
the resolved globals satisfy the spec's root-to-leaf law — every visited
node's expected global equals its parent's expected global (identity for a
root) times its own local matrix (`nodeGlobalsConsistent`); on the spec's
concrete topology (root `R` with children `[C1, C2]`, `C1` with child
`[C3]`) the traversal visits all four nodes and yields
`global(C3) = local(R) * local(C1) * local(C3)` (here at a scale, a shear
and a translation matrix), and identity locals everywhere yield identity
globals. -/
theorem claim_C6_global_transform_resolution :
    (∀ (nodes : List ModelNode) (nc : List Nat),
      childLinksOk nodes nc = true → nodes.length ≤ SModel.u32Max →
      nodeGlobalsConsistent nodes (resolveGlobals nodes nc)) ∧
    ((resolveGlobals (nodesRC mA mB mat4Id mC) ncRC).visited = [true, true, true, true] ∧
      (resolveGlobals (nodesRC mA mB mat4Id mC) ncRC).expectedGlobals.getD 3 mat4Id =
        mat4Mul (mat4Mul mA mB) mC) ∧
    ((resolveGlobals (nodesRC mat4Id mat4Id mat4Id mat4Id) ncRC).expectedGlobals =
      [mat4Id, mat4Id, mat4Id, mat4Id]) := by
  refine ⟨resolve_inv, ⟨by rfl, ?_⟩, ?_⟩
  · have h : (resolveGlobals (nodesRC mA mB mat4Id mC) ncRC).expectedGlobals.getD 3 mat4Id =
        mat4Mul (mat4Mul (mat4Mul mat4Id mA) mB) mC := by rfl
    rw [h, mat4_one_mul]
  · have h : (resolveGlobals (nodesRC mat4Id mat4Id mat4Id mat4Id) ncRC).expectedGlobals =
        [mat4Mul mat4Id mat4Id,
         mat4Mul (mat4Mul mat4Id mat4Id) mat4Id,
         mat4Mul (mat4Mul mat4Id mat4Id) mat4Id,
         mat4Mul (mat4Mul (mat4Mul mat4Id mat4Id) mat4Id) mat4Id] := by rfl
    rw [h]
    simp [mat4_one_mul]

/-- Witness for C6 at the concrete four-node forest. -/
theorem claim_C6_witness :
    (childLinksOk (nodesRC mA mB mat4Id mC) ncRC = true ∧
      (nodesRC mA mB mat4Id mC).length ≤ SModel.u32Max) ∧
    nodeGlobalsConsistent (nodesRC mA mB mat4Id mC)
      (resolveGlobals (nodesRC mA mB mat4Id mC) ncRC) :=
  ⟨⟨by rfl, by decide⟩,
   claim_C6_global_transform_resolution.1 (nodesRC mA mB mat4Id mC) ncRC
     (by rfl) (by decide)⟩

/-- C7 (amended): the globals traversal is bounded by the visited-set check:
any recursion budget of at least `nodeCount` yields the same result, for
every node table including cyclic ones; on the spec's two-node cycle no dfs
root exists, so both nodes remain unvisited (the traversal terminates at
once rather than recursing forever). -/
theorem claim_C7_traversal_bounded :
    (∀ (nodes : List ModelNode) (nc : List Nat) (f1 f2 : Nat),
      nodes.length ≤ f1 → nodes.length ≤ f2 →
      resolveWithFuel nodes nc f1 = resolveWithFuel nodes nc f2) ∧
    (resolveGlobals cyclicNodes cyclicNc).visited = [false, false] :=
  ⟨fun nodes nc f1 f2 h1 h2 => resolveWithFuel_congr nodes nc f1 f2 h1 h2, by decide⟩

/-- Witness for C7: on the cyclic table, budgets 2 and 5 agree. -/
theorem claim_C7_witness :
    (cyclicNodes.length ≤ 2 ∧ cyclicNodes.length ≤ 5) ∧
      resolveWithFuel cyclicNodes cyclicNc 2 = resolveWithFuel cyclicNodes cyclicNc 5 :=
  ⟨by decide,
   claim_C7_traversal_bounded.1 cyclicNodes cyclicNc 2 5 (by decide) (by decide)⟩

/-- C7 (counterexample): on the spec's two-node cycle the verifier's node
validation passes and its global-comparison pass skips both (unvisited)
nodes, so `nodeOk` stays true — the cyclic/unreachable nodes are not
flagged. -/
theorem claim_C7_counterexample :
    verifyNodeGraph cyclicNodes [] cyclicNc 0 = true ∧
      (resolveGlobals cyclicNodes cyclicNc).visited = [false, false] := by
  exact ⟨by decide, by decide⟩

end Verify
